import Mathlib

/-!
# QMapShack: line editing tool, Routino database builder and canvas

A shallow embedding of

* `src/mouse/line/CLineOpAddPoint.cpp` (the add-point operation of the line editor),
* `src/tool/CRoutinoDatabaseBuilder.cpp` (the planetsplitter command sequence),
* `src/qmapshack/canvas/CCanvas.cpp` (wheel, key and event handlers, status messages and
  zoom of the canvas),

together with the properties proved about them.

Conventions of the embedding:

* `QVector<T>` is `List T`; an index is an `Int` as in the source (`qint32`), and an
  access or insertion outside the valid range (an assertion failure in Qt) makes the
  operation return `none`.
* `qreal` coordinates are exact rationals; no property below depends on rounding.
* Objects the operation talks to but whose code is not part of the sources at hand
  (the parent handler's history, the routing, the projection of the GIS layer, the
  hit tests) are parameters, collected in `LineEnv`.
-/

namespace QMapShack

/-! ## Basic Qt value types -/

/-- Integer pixel position, `QPoint`. -/
structure QPoint where
  x : Int
  y : Int
  deriving DecidableEq

/-- Real-valued position, `QPointF`. -/
structure QPointF where
  x : ℚ
  y : ℚ
  deriving DecidableEq

/-- The implicit conversion `QPointF(const QPoint&)` used by `QPointF coord = e->pos()`. -/
def QPoint.toPointF (p : QPoint) : QPointF := ⟨(p.x : ℚ), (p.y : ℚ)⟩

/-- Mouse buttons that the handlers distinguish. -/
inductive MouseButton where
  | LeftButton
  | RightButton
  | OtherButton
  deriving DecidableEq

/-- The part of `QMouseEvent` read by the handlers: `button()` and `pos()`. -/
structure QMouseEvent where
  button : MouseButton
  pos : QPoint
  deriving DecidableEq

/-- Redraw requests of the canvas, `CCanvas::redraw_e`. -/
inductive redraw_e where
  | eRedrawMouse
  | eRedrawAll
  deriving DecidableEq

/-- A single shot timer: whether it is running and how often `start()` has been called
on it (each `start()` restarts the interval). -/
structure QTimer where
  isActive : Bool
  nStarts : Nat
  deriving DecidableEq

/-- The call `QTimer::start()`: the timer runs, with a fresh interval. -/
def QTimer.start (t : QTimer) : QTimer := { isActive := true, nStarts := t.nStarts + 1 }

/-- The call `QTimer::stop()`. -/
def QTimer.stop (t : QTimer) : QTimer := { t with isActive := false }

/-! ## `QVector` operations with `int` indices -/

/-- The test `0 <= i < v.size()`. -/
def validIdx {α : Type} (v : List α) (i : Int) : Prop := 0 ≤ i ∧ i < (v.length : Int)

instance {α : Type} (v : List α) (i : Int) : Decidable (validIdx v i) := by
  unfold validIdx; infer_instance

/-- The call `QVector::insert(i, x)`: `x` is put before the element at index `i`
(at the end for `i = size()`); any other `i` violates the assertion of Qt. -/
def qvInsert {α : Type} (v : List α) (i : Int) (x : α) : Option (List α) :=
  if 0 ≤ i ∧ i ≤ (v.length : Int) then
    some (v.take i.toNat ++ x :: v.drop i.toNat)
  else none

/-- Read access `v[i]`. -/
def qvAt {α : Type} (v : List α) (i : Int) : Option α :=
  if 0 ≤ i then v[i.toNat]? else none

/-- In-place update through the reference `v[i]`. -/
def qvModify {α : Type} (v : List α) (i : Int) (f : α → α) : Option (List α) :=
  if validIdx v i then some (v.modify f i.toNat) else none

/-- The call `QVector::last()`, defined on a non-empty vector only. -/
def qvLast {α : Type} (v : List α) : Option α := v.getLast?

/-! ## The line data model (`IGisLine`) -/

/-- A routed sub-point between two points of a line, `IGisLine::subpt_t`. -/
structure subpt_t where
  coord : QPointF
  pixel : QPointF
  deriving DecidableEq

/-- A point of a line, `IGisLine::point_t`: its coordinate, its pixel position and
the sub-points of the segment that starts at it. -/
structure point_t where
  coord : QPointF
  pixel : QPointF
  subpts : List subpt_t
  deriving DecidableEq

/-- Modelled from the spec: the constructor `IGisLine::point_t(const QPointF&)` is declared
outside the sources at hand; the new point "has the coordinate" it is given, and as a freshly
constructed value it has a default pixel position and no sub-points. -/
def point_t.ofCoord (c : QPointF) : point_t := { coord := c, pixel := ⟨0, 0⟩, subpts := [] }

/-- The statement `pt.subpts.clear()`. -/
def point_t.clearSubpts (p : point_t) : point_t := { p with subpts := [] }

/-- A line, `SGisLine` (a `QVector<IGisLine::point_t>`). -/
abbrev SGisLine := List point_t

/-! ## The add-point operation (`CLineOpAddPoint`) -/

/-- What the operation calls but does not define. `H` is the state of the undo/redo
history of the parent handler.

* `NOIDX`: the constant for "no index".
* `convertPx2Rad`: `gis->convertPx2Rad(pt)`, as a function of the point.
* `slotTimeoutRouting`: `ILineOp::slotTimeoutRouting()`, given the line, the focus and the
  routing timer; it yields the line and the timer after the routing update.
* `storeToHistory`, `restoreFromHistory`: the calls on the parent handler; the latter also
  yields the line written through its reference argument.
* `isCloseToLine`, `isCloseTo`: the hit tests of `ILineOp` for segments and points. -/
structure LineEnv (H : Type) where
  NOIDX : Int
  convertPx2Rad : QPointF → QPointF
  slotTimeoutRouting : SGisLine → Int → QTimer → SGisLine × QTimer
  storeToHistory : H → SGisLine → H
  restoreFromHistory : H → SGisLine → H × SGisLine
  isCloseToLine : SGisLine → QPoint → Int
  isCloseTo : SGisLine → QPoint → Int

/-- The state an add-point operation works on: the members of `CLineOpAddPoint` and
`ILineOp` it uses (`points`, `idxFocus`, `addPoint`, `isPoint`, `timerRouting`), the parent
handler (`history`, and `canvasPanning`, the value last given to `setCanvasPanning`) and
the update requests sent to the canvas (`canvasUpdates`, newest last). -/
structure CLineOpAddPoint (H : Type) where
  points : SGisLine
  idxFocus : Int
  addPoint : Bool
  isPoint : Bool
  timerRouting : QTimer
  history : H
  canvasPanning : Bool
  canvasUpdates : List redraw_e

namespace CLineOpAddPoint

variable {H : Type}

/-- The call `parentHandler->setCanvasPanning(b)`. -/
def setCanvasPanning (b : Bool) (s : CLineOpAddPoint H) : CLineOpAddPoint H :=
  { s with canvasPanning := b }

/-- The call `canvas->slotTriggerCompleteUpdate(r)`. -/
def slotTriggerCompleteUpdate (r : redraw_e) (s : CLineOpAddPoint H) : CLineOpAddPoint H :=
  { s with canvasUpdates := s.canvasUpdates ++ [r] }

/-- The method `CLineOpAddPoint::append()`. -/
def append (s : CLineOpAddPoint H) : Option (CLineOpAddPoint H) := do
  let idx : Int := (s.points.length : Int)
  let last ← qvLast s.points
  let pts ← qvInsert s.points idx last
  let s1 : CLineOpAddPoint H :=
    { s with idxFocus := idx, points := pts, addPoint := true, isPoint := true }
  pure (setCanvasPanning s1.addPoint s1)

/-- The branch of `mousePressEventEx` for the left button. -/
def pressLeft (env : LineEnv H) (e : QMouseEvent) (s : CLineOpAddPoint H) :
    Option (CLineOpAddPoint H) :=
  if s.addPoint then
    -- drop the new point at current position
    let r := env.slotTimeoutRouting s.points s.idxFocus s.timerRouting
    let s1 : CLineOpAddPoint H := { s with points := r.1, timerRouting := r.2 }
    if s1.isPoint then
      let idx : Int :=
        if s1.idxFocus = (s1.points.length : Int) - 1 then s1.idxFocus + 1 else s1.idxFocus
      let h := env.storeToHistory s1.history s1.points
      let coord := env.convertPx2Rad e.pos.toPointF
      (qvInsert s1.points idx (point_t.ofCoord coord)).map fun pts =>
        { s1 with idxFocus := idx, history := h, points := pts }
    else
      let h := env.storeToHistory s1.history s1.points
      some { s1 with history := h, addPoint := false, idxFocus := env.NOIDX }
  else if s.isPoint then
    let idx : Int :=
      if s.idxFocus = (s.points.length : Int) - 1 then s.idxFocus + 1 else s.idxFocus
    let coord := env.convertPx2Rad e.pos.toPointF
    (qvInsert s.points idx (point_t.ofCoord coord)).map fun pts =>
      { s with idxFocus := idx, points := pts, addPoint := true }
  else
    -- clear current line segment
    (qvModify s.points s.idxFocus point_t.clearSubpts).bind fun pts0 =>
      let coord := env.convertPx2Rad e.pos.toPointF
      let idx : Int := s.idxFocus + 1
      (qvInsert pts0 idx (point_t.ofCoord coord)).map fun pts =>
        { s with idxFocus := idx, points := pts, addPoint := true }

/-- The branch of `mousePressEventEx` for the right button. -/
def pressRight (env : LineEnv H) (s : CLineOpAddPoint H) : CLineOpAddPoint H :=
  let s1 : CLineOpAddPoint H :=
    if s.addPoint then
      -- cancel action and restore last state of line
      let r := env.restoreFromHistory s.history s.points
      { s with timerRouting := s.timerRouting.stop, history := r.1, points := r.2,
               addPoint := false, idxFocus := env.NOIDX }
    else s
  { s1 with idxFocus := env.NOIDX }

/-- The last two statements of `mousePressEventEx`: the canvas panning follows `addPoint` and an
update of the mouse layer is requested. -/
def pressFinish (s : CLineOpAddPoint H) : CLineOpAddPoint H :=
  slotTriggerCompleteUpdate .eRedrawMouse (setCanvasPanning s.addPoint s)

/-- The method `CLineOpAddPoint::mousePressEventEx(QMouseEvent * e)`. -/
def mousePressEventEx (env : LineEnv H) (e : QMouseEvent) (s : CLineOpAddPoint H) :
    Option (CLineOpAddPoint H) :=
  let r : Option (CLineOpAddPoint H) :=
    match e.button with
    | .LeftButton => pressLeft env e s
    | .RightButton => some (pressRight env s)
    | .OtherButton => some s
  r.map pressFinish

/-- The method `CLineOpAddPoint::mouseMoveEventEx(QMouseEvent * e)`. -/
def mouseMoveEventEx (env : LineEnv H) (e : QMouseEvent) (s : CLineOpAddPoint H) :
    Option (CLineOpAddPoint H) :=
  let r : Option (CLineOpAddPoint H) :=
    if s.addPoint then
      let coord := env.convertPx2Rad e.pos.toPointF
      -- update position of point, clear its subpoints
      (qvModify s.points s.idxFocus fun pt => { pt with coord := coord, subpts := [] }).bind
        fun pts1 =>
          let pts2 : Option SGisLine :=
            if s.idxFocus > 0 then qvModify pts1 (s.idxFocus - 1) point_t.clearSubpts
            else some pts1
          pts2.map fun pts =>
            -- retrigger delayed routing
            { s with points := pts, timerRouting := s.timerRouting.start }
    else
      -- find line segment close to cursor, if none is found try to find point
      let idx := env.isCloseToLine s.points e.pos
      if idx = env.NOIDX then
        some { s with idxFocus := env.isCloseTo s.points e.pos, isPoint := true }
      else
        some { s with idxFocus := idx, isPoint := false }
  r.map fun s1 => slotTriggerCompleteUpdate .eRedrawMouse s1

/-- The method `CLineOpAddPoint::canvasPanned(QPointF pos)`. -/
def canvasPanned (env : LineEnv H) (pos : QPointF) (s : CLineOpAddPoint H) :
    Option (CLineOpAddPoint H) :=
  let r : Option (CLineOpAddPoint H) :=
    if s.addPoint then
      (qvModify s.points s.idxFocus fun pt => { pt with coord := env.convertPx2Rad pos }).map
        fun pts => { s with points := pts }
    else some s
  r.map fun s1 => slotTriggerCompleteUpdate .eRedrawMouse s1

end CLineOpAddPoint

namespace CLineOpAddPoint

variable {H : Type}

/-- Successive calls of `mouseMoveEventEx`, one for each event. -/
def mouseMoves (env : LineEnv H) (es : List QMouseEvent) (s : CLineOpAddPoint H) :
    Option (CLineOpAddPoint H) :=
  es.foldlM (fun st e => mouseMoveEventEx env e st) s

/-- The calls made on an add-point operation after its construction. -/
inductive LineOpCall where
  | append
  | mousePressEventEx (e : QMouseEvent)
  | mouseMoveEventEx (e : QMouseEvent)
  | canvasPanned (pos : QPointF)
  deriving DecidableEq

/-- One call on the operation. -/
def call (env : LineEnv H) (c : LineOpCall) (s : CLineOpAddPoint H) :
    Option (CLineOpAddPoint H) :=
  match c with
  | .append => append s
  | .mousePressEventEx e => mousePressEventEx env e s
  | .mouseMoveEventEx e => mouseMoveEventEx env e s
  | .canvasPanned pos => canvasPanned env pos s

/-- Successive calls on the operation. -/
def calls (env : LineEnv H) (cs : List LineOpCall) (s : CLineOpAddPoint H) :
    Option (CLineOpAddPoint H) :=
  cs.foldlM (fun st c => call env c st) s


/-- What `drawFg` hands to the painter: a single point (`drawSinglePoint`), a rectangle
centered at a pixel position (`rectPoint.moveCenter(...)`, `drawRect`), or a polyline. -/
inductive LinePaint where
  | drawSinglePoint (px : QPointF)
  | drawRect (center : QPointF)
  | drawPolyline (line : List QPointF)
  deriving DecidableEq

/-- The method `CLineOpAddPoint::drawFg(QPainter& p)`, as the list of things painted; pens
and brushes are left out. -/
def drawFg (env : LineEnv H) (s : CLineOpAddPoint H) : Option (List LinePaint) :=
  if s.idxFocus = env.NOIDX then some []
  else if s.addPoint then
    (qvAt s.points s.idxFocus).map fun pt => [.drawSinglePoint pt.pixel]
  else if s.isPoint then
    (qvAt s.points s.idxFocus).map fun pt => [.drawSinglePoint pt.pixel]
  else if s.idxFocus < (s.points.length : Int) - 1 then
    (qvAt s.points s.idxFocus).bind fun pt1 =>
      (qvAt s.points (s.idxFocus + 1)).map fun pt2 =>
        let line : List QPointF :=
          if pt1.subpts.isEmpty then [pt1.pixel, pt2.pixel]
          else pt1.pixel :: (pt1.subpts.map fun pt => pt.pixel) ++ [pt2.pixel]
        [.drawRect pt1.pixel, .drawRect pt2.pixel, .drawPolyline line,
          .drawRect pt1.pixel, .drawRect pt2.pixel, .drawPolyline line]
  else some []

end CLineOpAddPoint


/-! ## The Routino database builder (`CRoutinoDatabaseBuilder`) -/

/-- The type `QProcess::ExitStatus`. -/
inductive ExitStatus where
  | NormalExit
  | CrashExit
  deriving DecidableEq

/-- An entry of the text browser of the tool shell: text sent through `stdOut`, or the
final message appended in dark green. -/
inductive ShellText where
  | stdOut (text : String)
  | darkGreen (text : String)
  deriving DecidableEq

/-- A process started with `cmd.start(program, args)`. -/
structure ProcessStart where
  program : String
  args : List String
  deriving DecidableEq

/-- The widgets and members of `CRoutinoDatabaseBuilder` that the slots use:
the texts of the items of `listWidget`, the texts of `labelTargetPath` and
`lineTargetPrefix`, whether `pushStart` is enabled, the entries of `textBrowser`, the
members `sourceFiles`, `targetPrefix`, `targetPath`, `first`, `last`, the file name of
`xmlTagging`, and the processes started through `cmd`, oldest first. -/
structure CRoutinoDatabaseBuilder where
  listWidget : List String
  labelTargetPath : String
  lineTargetPrefix : String
  pushStart : Bool
  textBrowser : List ShellText
  sourceFiles : List String
  targetPrefix : String
  targetPath : String
  first : Bool
  last : Bool
  xmlTagging : String
  cmd : List ProcessStart

namespace CRoutinoDatabaseBuilder

/-- The call `stdOut(str)` of the tool shell followed by `cmd.start("planetsplitter", args)`. -/
def startPlanetsplitter (args : List String) (s : CRoutinoDatabaseBuilder) :
    CRoutinoDatabaseBuilder :=
  { s with
    textBrowser := s.textBrowser ++ [.stdOut ("planetsplitter " ++ " ".intercalate args ++ "\n")]
    cmd := s.cmd ++ [⟨"planetsplitter", args⟩] }

/-- The body of `CRoutinoDatabaseBuilder::slotStart()` up to its last statement: the start
button is disabled, the texts of all items of the list widget become `sourceFiles`, prefix
and path are read from the widgets, `first` is set, `last` is cleared and the text browser
is cleared. -/
def slotStartCapture (s : CRoutinoDatabaseBuilder) : CRoutinoDatabaseBuilder :=
  { s with
    pushStart := false
    sourceFiles := s.listWidget
    targetPrefix := s.lineTargetPrefix
    targetPath := s.labelTargetPath
    first := true
    last := false
    textBrowser := [] }

/-- The method `CRoutinoDatabaseBuilder::finished(int exitCode, QProcess::ExitStatus status)`. -/
def finished (_exitCode : Int) (_status : ExitStatus) (s : CRoutinoDatabaseBuilder) :
    CRoutinoDatabaseBuilder :=
  if s.last then
    { s with
      textBrowser := s.textBrowser ++ [.darkGreen "!!! done !!!\n"]
      pushStart := true }
  else
    match s.sourceFiles with
    | [] =>
      let args := ["--dir=" ++ s.targetPath, "--prefix=" ++ s.targetPrefix,
        "--tagging=" ++ s.xmlTagging, "--process-only"]
      { startPlanetsplitter args s with last := true }
    | file :: rest =>
      let args := ["--dir=" ++ s.targetPath, "--prefix=" ++ s.targetPrefix,
        "--tagging=" ++ s.xmlTagging]
      let args1 := if s.first then args ++ ["--parse-only"]
        else args ++ ["--parse-only", "--append"]
      let s1 : CRoutinoDatabaseBuilder := if s.first then { s with first := false } else s
      startPlanetsplitter (args1 ++ [file]) { s1 with sourceFiles := rest }

/-- The method `CRoutinoDatabaseBuilder::slotStart()`. Its last statement calls
`slotFinished(0, QProcess::NormalExit)` of the tool shell, which is given as a parameter. -/
def slotStart (slotFinished : Int → ExitStatus → CRoutinoDatabaseBuilder → CRoutinoDatabaseBuilder)
    (s : CRoutinoDatabaseBuilder) : CRoutinoDatabaseBuilder :=
  slotFinished 0 .NormalExit (slotStartCapture s)

/-- Successive invocations of `finished`, one for each pair of exit code and exit status. -/
def runFinished (codes : List (Int × ExitStatus)) (s : CRoutinoDatabaseBuilder) :
    CRoutinoDatabaseBuilder :=
  codes.foldl (fun st c => finished c.1 c.2 st) s

/-- The parse command as the specification words it: the command for the source file `f`
at position `i` of the list (counted from 0), with `--append` for every file but the
first. -/
def specParse (T P X : String) (i : Nat) (f : String) : ProcessStart :=
  ⟨"planetsplitter",
    if i = 0 then ["--dir=" ++ T, "--prefix=" ++ P, "--tagging=" ++ X, "--parse-only", f]
    else ["--dir=" ++ T, "--prefix=" ++ P, "--tagging=" ++ X, "--parse-only", "--append", f]⟩

/-- The process command as the specification words it. -/
def specProcess (T P X : String) : ProcessStart :=
  ⟨"planetsplitter", ["--dir=" ++ T, "--prefix=" ++ P, "--tagging=" ++ X, "--process-only"]⟩

/-- The command sequence as the specification words it, for source files `f1..fn`, target
path `T`, prefix `P` and tagging file `X`: one parse command per source file, in list
order, and the process command after them. -/
def specCommands (T P X : String) (files : List String) : List ProcessStart :=
  (files.enum.map fun p => specParse T P X p.1 p.2) ++ [specProcess T P X]

end CRoutinoDatabaseBuilder

namespace CRoutinoDatabaseBuilder

/-- The method `CRoutinoDatabaseBuilder::enabelStartButton()`. -/
def enabelStartButton (s : CRoutinoDatabaseBuilder) : CRoutinoDatabaseBuilder :=
  let s1 : CRoutinoDatabaseBuilder := { s with pushStart := false }
  if s1.listWidget.length = 0 then s1
  else if s1.labelTargetPath = "-" then s1
  else if s1.lineTargetPrefix.isEmpty then s1
  else { s1 with pushStart := true }

end CRoutinoDatabaseBuilder

/-! ## The canvas (`CCanvas`) -/

/-- The value of the `int` that the two's complement machine holds for the mathematical
result `x` of an `int` operation. -/
def wrapInt32 (x : Int) : Int := (x + 2 ^ 31) % 2 ^ 32 - 2 ^ 31

/-- The function `abs(int)` of the C library on the machine (`abs(INT_MIN)` stays
`INT_MIN`). -/
def absInt32 (x : Int) : Int := wrapInt32 |x|

/-- Subtraction of points, `QPointF operator-`. -/
def QPointF.sub (a b : QPointF) : QPointF := ⟨a.x - b.x, a.y - b.y⟩

/-- The part of `QWheelEvent` read by the handler: `angleDelta()`, `delta()`, `posF()`. -/
structure QWheelEvent where
  angleDelta : QPoint
  delta : Int
  posF : QPointF
  deriving DecidableEq

/-- The draw contexts of a canvas. -/
inductive DrawId where
  | map
  | dem
  | gis
  | rt
  deriving DecidableEq

/-- The four draw context objects of a canvas (`map`, `dem`, `gis`, `rt`), each with a
state of type `D`. -/
structure DrawContexts (D : Type) where
  map : D
  dem : D
  gis : D
  rt : D
  deriving DecidableEq

/-- The object a context pointer refers to. -/
def DrawContexts.get {D : Type} (c : DrawContexts D) : DrawId → D
  | .map => c.map
  | .dem => c.dem
  | .gis => c.gis
  | .rt => c.rt

/-- Replace the state of the object a context pointer refers to. -/
def DrawContexts.set {D : Type} (c : DrawContexts D) (i : DrawId) (d : D) : DrawContexts D :=
  match i with
  | .map => { c with map := d }
  | .dem => { c with dem := d }
  | .gis => { c with gis := d }
  | .rt => { c with rt := d }

/-- The methods of `IDrawContext` the canvas calls; their code is not part of the sources
at hand, so they are parameters.

* `zoomInOut`: `zoom(bool in, CCanvas::redraw_e& needsRedraw)`.
* `zoomIdx`: the getter `zoom()`.
* `setZoomIdx`: `zoom(int idx)`.
* `convertPx2Rad`, `convertRad2Px`: the conversions between pixel and coordinate. -/
structure DrawOps (D : Type) where
  zoomInOut : Bool → redraw_e → D → D × redraw_e
  zoomIdx : D → Int
  setZoomIdx : Int → D → D
  convertPx2Rad : D → QPointF → QPointF
  convertRad2Px : D → QPointF → QPointF

/-- What a canvas does to the outside, in the order of the calls: the forwarding of a wheel
event to the mouse adapter, the entry into `setZoom`, the signal `sigZoom` and the call
`update()`; further the other calls to the mouse adapter (`afterMouseLostEvent`,
`pinchGestureEvent`, `keyPressEvent`), the signal `sigMove`, the entry into
`slotTriggerCompleteUpdate`, the calls `adjustSize()` on the status label,
`setTotalScaleFactor` on a pinch gesture, `accept()` on an event and `loadConfig` on the
grid, and the calls of the base class (`QWidget::event`, `QWidget::keyPressEvent`). -/
inductive CanvasCall where
  | mouseWheelEvent
  | setZoom (zoomIn : Bool)
  | sigZoom
  | update
  | afterMouseLostEvent
  | pinchGestureEvent
  | mouseKeyPressEvent
  | sigMove
  | slotTriggerCompleteUpdate (flags : redraw_e)
  | labelAdjustSize
  | setTotalScaleFactor (factor : ℚ)
  | accept
  | gridLoadConfig
  | widgetEvent
  | widgetKeyPressEvent
  deriving DecidableEq

/-- A label widget: whether it is shown and its text. -/
structure QLabel where
  visible : Bool
  text : String
  deriving DecidableEq

/-- A map from keys to messages, `QMap<QString, QString>`: an association list without
duplicate keys. Keys are ordered as Lean strings are (character by character). -/
abbrev StatusMap := AList (fun _ : String => String)

/-- The members of `CCanvas` used by the handlers: the draw contexts and the list
`allDrawContext` of pointers to them, `posFocus`, `zoomAngleDelta`, `needsRedraw`, the
calls made so far, and further `statusMessages`, the label `labelStatusMessages`,
`mouseLost`, the `width()` and `height()` of the widget and `backColor`. -/
structure CCanvas (D : Type) where
  contexts : DrawContexts D
  allDrawContext : List DrawId
  posFocus : QPointF
  zoomAngleDelta : Int
  needsRedraw : redraw_e
  calls : List CanvasCall
  statusMessages : StatusMap := ∅
  labelStatusMessages : QLabel := ⟨false, ""⟩
  mouseLost : Bool := false
  width : Int := 0
  height : Int := 0
  backColor : String := ""

/-- A rectangle with real coordinates, `QRectF`. -/
structure QRectF where
  x : ℚ
  y : ℚ
  width : ℚ
  height : ℚ
  deriving DecidableEq

/-- The method `QRectF::center()`. -/
def QRectF.center (r : QRectF) : QPointF := ⟨r.x + r.width / 2, r.y + r.height / 2⟩

/-- The test `QPointF::isNull()`: both coordinates are zero. -/
def QPointF.isNull (p : QPointF) : Bool := decide (p.x = 0) && decide (p.y = 0)

/-- The conversion of a `qreal` to `int` (towards zero), as in `QPoint(center.x(),
center.y())`. -/
def truncToInt (q : ℚ) : Int := q.num.tdiv q.den

/-- The values `CCanvas::loadConfig` reads from a `QSettings` object itself; each is absent
when the key is not set. -/
structure QSettings where
  posFocus : Option QPointF
  proj : Option String
  scales : Option Int
  backColor : Option String
  deriving DecidableEq

/-- The part of a `QPinchGesture` read by the canvas: the two change flags, the center
points and the total scale factor. -/
structure QPinchGesture where
  centerPointChanged : Bool
  scaleFactorChanged : Bool
  centerPoint : QPointF
  lastCenterPoint : QPointF
  totalScaleFactor : ℚ
  deriving DecidableEq

/-- An event delivered to `CCanvas::event`: an event of type `QEvent::Gesture` (with the
pinch gesture it carries, if any), an event that is a `QMouseEvent`, or any other event. -/
inductive QEvent where
  | gesture (pinch : Option QPinchGesture)
  | mouse (me : QMouseEvent)
  | other
  deriving DecidableEq

/-- The test `dynamic_cast<QMouseEvent*>(event) != nullptr`. -/
def QEvent.isMouseEvent : QEvent → Bool
  | .mouse _ => true
  | _ => false

/-- Whether the event is a gesture event that carries a pinch gesture. -/
def QEvent.hasPinch : QEvent → Bool
  | .gesture (some _) => true
  | _ => false


/-- The keys `CCanvas::keyPressEvent` distinguishes. -/
inductive Key where
  | Key_Plus
  | Key_Minus
  | Key_Up
  | Key_Down
  | Key_Left
  | Key_Right
  | Key_Escape
  | Key_Other
  deriving DecidableEq

/-- What the canvas uses beyond `DrawOps` and does not define:

* `redrawOr`: the combination `needsRedraw | flags` of two values of `redraw_e`.
* `mapFromGlobal`: `QWidget::mapFromGlobal`.
* `zoomRect`: `CMapDraw::zoom(const QRectF&)`.
* `setProjection`, `getProjection`, `setScales`, `getScalesType`: methods of
  `IDrawContext`.
* `mapLoadConfig`, `demLoadConfig`: `loadConfig` of the map and of the elevation
  context. -/
structure CanvasOps (D : Type) extends DrawOps D where
  redrawOr : redraw_e → redraw_e → redraw_e
  mapFromGlobal : QPoint → QPoint
  zoomRect : QRectF → D → D
  setProjection : String → D → D
  getProjection : D → String
  setScales : Int → D → D
  getScalesType : D → Int
  mapLoadConfig : QSettings → D → D
  demLoadConfig : QSettings → D → D


namespace CCanvas

variable {D : Type}

/-- The list built in the constructor: `allDrawContext << map << dem << gis << rt`. -/
def allDrawContextInit : List DrawId := [.map, .dem, .gis, .rt]

/-- The method `CCanvas::setZoom(bool in, redraw_e& needsRedraw)`, called on the member
`needsRedraw`. -/
def setZoom (ops : DrawOps D) (zoomIn : Bool) (c : CCanvas D) : CCanvas D :=
  let c0 : CCanvas D := { c with calls := c.calls ++ [.setZoom zoomIn] }
  let r := ops.zoomInOut zoomIn c0.needsRedraw c0.contexts.map
  let c1 : CCanvas D := { c0 with contexts := c0.contexts.set .map r.1, needsRedraw := r.2 }
  let ctxs := (c1.allDrawContext.drop 1).foldl
    (fun cs i => cs.set i (ops.setZoomIdx (ops.zoomIdx cs.map) (cs.get i))) c1.contexts
  { c1 with contexts := ctxs, calls := c1.calls ++ [.sigZoom] }

/-- The method `CCanvas::wheelEvent(QWheelEvent * e)`; `flipMouseWheel` is the value of
`CMainWindow::self().flipMouseWheel()`. -/
def wheelEvent (ops : DrawOps D) (flipMouseWheel : Bool) (e : QWheelEvent) (c : CCanvas D) :
    CCanvas D :=
  let c0 : CCanvas D := { c with calls := c.calls ++ [.mouseWheelEvent] }
  -- zoom in/out every 15 degrees = every 120 eights
  let EIGHTS_ZOOM : Int := 15 * 8
  let c1 : CCanvas D :=
    { c0 with zoomAngleDelta := wrapInt32 (c0.zoomAngleDelta + e.angleDelta.y) }
  if absInt32 c1.zoomAngleDelta < EIGHTS_ZOOM then c1
  else
    let c2 : CCanvas D := { c1 with zoomAngleDelta := 0 }
    let pos := e.posF
    let pt1 := ops.convertPx2Rad c2.contexts.map pos
    let c3 := setZoom ops (if flipMouseWheel then decide (e.delta < 0) else decide (e.delta > 0)) c2
    let pt1 := ops.convertRad2Px c3.contexts.map pt1
    let pf := ops.convertRad2Px c3.contexts.map c3.posFocus
    let pf := pf.sub (pos.sub pt1)
    let pf := ops.convertPx2Rad c3.contexts.map pf
    { c3 with posFocus := pf, calls := c3.calls ++ [.update] }

/-- The loop `for(IDrawContext * context : allDrawContext.mid(1)) context->zoom(map->zoom())`
of `zoomTo` and `loadConfig`. -/
def zoomOthers (ops : DrawOps D) (c : CCanvas D) : CCanvas D :=
  { c with
    contexts := (c.allDrawContext.drop 1).foldl
      (fun cs i => cs.set i (ops.setZoomIdx (ops.zoomIdx cs.map) (cs.get i))) c.contexts }

/-- The method `CCanvas::slotTriggerCompleteUpdate(CCanvas::redraw_e flags)`. -/
def slotTriggerCompleteUpdate (env : CanvasOps D) (flags : redraw_e) (c : CCanvas D) :
    CCanvas D :=
  { c with
    needsRedraw := env.redrawOr c.needsRedraw flags
    calls := c.calls ++ [.slotTriggerCompleteUpdate flags, .update] }

/-- The method `CCanvas::moveMap(const QPointF& delta)`. -/
def moveMap (env : CanvasOps D) (delta : QPointF) (c : CCanvas D) : CCanvas D :=
  let pf := env.convertRad2Px c.contexts.map c.posFocus
  let pf := pf.sub delta
  let pf := env.convertPx2Rad c.contexts.map pf
  slotTriggerCompleteUpdate env .eRedrawAll
    { c with posFocus := pf, calls := c.calls ++ [.sigMove] }

/-- The method `CCanvas::zoomTo(const QRectF& rect)`. -/
def zoomTo (env : CanvasOps D) (rect : QRectF) (c : CCanvas D) : CCanvas D :=
  let c1 : CCanvas D := { c with posFocus := rect.center }
  let c2 : CCanvas D :=
    { c1 with contexts := c1.contexts.set .map (env.zoomRect rect c1.contexts.map) }
  slotTriggerCompleteUpdate env .eRedrawAll (zoomOthers env.toDrawOps c2)

/-- The method `CCanvas::setProjection(const QString& proj)`. -/
def setProjection (env : CanvasOps D) (proj : String) (c : CCanvas D) : CCanvas D :=
  { c with
    contexts := c.allDrawContext.foldl
      (fun cs i => cs.set i (env.setProjection proj (cs.get i))) c.contexts }

/-- The method `CCanvas::setScales(const scales_type_e type)`. -/
def setScales (env : CanvasOps D) (type : Int) (c : CCanvas D) : CCanvas D :=
  { c with
    contexts := c.allDrawContext.foldl
      (fun cs i => cs.set i (env.setScales type (cs.get i))) c.contexts }

/-- The method `CCanvas::loadConfig(QSettings& cfg)`. -/
def loadConfig (env : CanvasOps D) (cfg : QSettings) (c : CCanvas D) : CCanvas D :=
  let c1 : CCanvas D := { c with posFocus := cfg.posFocus.getD c.posFocus }
  let c2 := setProjection env (cfg.proj.getD (env.getProjection c1.contexts.map)) c1
  let c3 := setScales env (cfg.scales.getD (env.getScalesType c2.contexts.map)) c2
  let c4 : CCanvas D := { c3 with backColor := cfg.backColor.getD "#FFFFBF" }
  let c5 : CCanvas D :=
    { c4 with contexts := c4.contexts.set .map (env.mapLoadConfig cfg c4.contexts.map) }
  let c6 : CCanvas D :=
    { c5 with contexts := c5.contexts.set .dem (env.demLoadConfig cfg c5.contexts.dem) }
  let c7 : CCanvas D := { c6 with calls := c6.calls ++ [.gridLoadConfig] }
  zoomOthers env.toDrawOps c7

/-- The method `CCanvas::mouseTrackingLost()`. -/
def mouseTrackingLost (c : CCanvas D) : CCanvas D := { c with mouseLost := true }

/-- The method `CCanvas::reportStatus(const QString& key, const QString& msg)`. -/
def reportStatus (key msg : String) (c : CCanvas D) : CCanvas D :=
  let m : StatusMap :=
    if msg.isEmpty then c.statusMessages.erase key else c.statusMessages.insert key msg
  let keys := m.keys.insertionSort (· ≤ ·)
  let report := keys.foldl (fun r k => r ++ ((m.lookup k).getD "" ++ "\n")) ""
  let c1 : CCanvas D := { c with statusMessages := m }
  let c2 : CCanvas D :=
    if report.isEmpty then
      { c1 with labelStatusMessages := { c1.labelStatusMessages with visible := false } }
    else
      { c1 with
        labelStatusMessages := { visible := true, text := report }
        calls := c1.calls ++ [.labelAdjustSize] }
  { c2 with calls := c2.calls ++ [.update] }

/-- The method `CCanvas::keyPressEvent(QKeyEvent * e)`, given `e->key()`. -/
def keyPressEvent (env : CanvasOps D) (key : Key) (c : CCanvas D) : CCanvas D :=
  let r : CCanvas D × Bool :=
    match key with
    | .Key_Plus => (setZoom env.toDrawOps true c, true)
    | .Key_Minus => (setZoom env.toDrawOps false c, true)
    -- move the map with keys up, down, left and right
    | .Key_Up => (moveMap env ⟨0, ((wrapInt32 (c.height.tdiv 4) : Int) : ℚ)⟩ c, true)
    | .Key_Down =>
      (moveMap env ⟨0, ((wrapInt32 ((wrapInt32 (-c.height)).tdiv 4) : Int) : ℚ)⟩ c, true)
    | .Key_Left => (moveMap env ⟨((wrapInt32 (c.width.tdiv 4) : Int) : ℚ), 0⟩ c, true)
    | .Key_Right =>
      (moveMap env ⟨((wrapInt32 ((wrapInt32 (-c.width)).tdiv 4) : Int) : ℚ), 0⟩ c, true)
    | .Key_Escape => (c, true)
    | .Key_Other => (c, false)
  if r.2 then
    { r.1 with calls := r.1.calls ++ [.mouseKeyPressEvent, .accept, .update] }
  else
    { r.1 with calls := r.1.calls ++ [.widgetKeyPressEvent] }

/-- The method `CCanvas::gestureEvent(QGestureEvent* e)`, given the pinch gesture of the
event, if it has one. The constants are the values of the `float` literals `0.8f`, `1.25f`
and `1.0f`. -/
def gestureEvent (env : CanvasOps D) (pinch : Option QPinchGesture) (c : CCanvas D) :
    Bool × CCanvas D :=
  match pinch with
  | none => (true, c)
  | some pinch =>
    let c1 : CCanvas D :=
      if pinch.centerPointChanged then
        let move := pinch.centerPoint.sub pinch.lastCenterPoint
        if !move.isNull then moveMap env move c else c
      else c
    let c2 : CCanvas D :=
      if pinch.scaleFactorChanged then
        let pscale := pinch.totalScaleFactor
        if pscale < 13421773 / 16777216 ∨ pscale > 5 / 4 then
          let center := pinch.centerPoint
          let pos := (env.mapFromGlobal ⟨truncToInt center.x, truncToInt center.y⟩).toPointF
          let pt1 := env.convertPx2Rad c1.contexts.map pos
          let c3 := setZoom env.toDrawOps (decide (pscale > 1)) c1
          let pt1 := env.convertRad2Px c3.contexts.map pt1
          let move := pos.sub pt1
          let c4 := if !move.isNull then moveMap env move c3 else c3
          let c5 : CCanvas D := { c4 with calls := c4.calls ++ [.setTotalScaleFactor 1] }
          slotTriggerCompleteUpdate env c5.needsRedraw c5
        else c1
      else c1
    (true, { c2 with mouseLost := true, calls := c2.calls ++ [.pinchGestureEvent] })

/-- The method `CCanvas::event(QEvent *event)`; `widgetResult` is the value
`QWidget::event(event)` returns. The call of `QWidget::event` is recorded; what the
handlers it dispatches to do is not part of this method. -/
def event (env : CanvasOps D) (widgetResult : Bool) (ev : QEvent) (c : CCanvas D) :
    Bool × CCanvas D :=
  match ev with
  | .gesture pinch => gestureEvent env pinch c
  | .mouse _ =>
    let c1 : CCanvas D :=
      if c.mouseLost then
        -- notify IMouse that the upcomming QMouseEvent needs special treatment
        { c with calls := c.calls ++ [.afterMouseLostEvent], mouseLost := false }
      else c
    (widgetResult, { c1 with calls := c1.calls ++ [.widgetEvent] })
  | .other => (widgetResult, { c with calls := c.calls ++ [.widgetEvent] })

/-- Successive deliveries of events to `event`, each with the value its call of
`QWidget::event` returns. -/
def events (env : CanvasOps D) (evs : List (Bool × QEvent)) (c : CCanvas D) : CCanvas D :=
  evs.foldl (fun st ev => (event env ev.1 ev.2 st).2) c


end CCanvas

/-! ## Concrete instances

A small line, an environment and states on which the operations can be evaluated. -/

/-- A line of three points; the second one carries a routed sub-point. -/
def exLine : SGisLine :=
  [⟨⟨1, 2⟩, ⟨0, 0⟩, []⟩, ⟨⟨3, 4⟩, ⟨5, 6⟩, [⟨⟨7, 8⟩, ⟨9, 9⟩⟩]⟩, ⟨⟨5, 5⟩, ⟨1, 1⟩, []⟩]

/-- An environment with `NOIDX = -1`, a projection that halves pixel positions, a routing
that stops the timer and leaves the line as it is, a history kept as a stack of lines,
and hit tests that find the point with the index `pos.x` and never a segment. -/
def exEnv : LineEnv (List SGisLine) where
  NOIDX := -1
  convertPx2Rad := fun p => ⟨p.x / 2, p.y / 2⟩
  slotTimeoutRouting := fun pts _ t => (pts, t.stop)
  storeToHistory := fun h l => l :: h
  restoreFromHistory := fun h l => (h, h.headD l)
  isCloseToLine := fun _ _ => -1
  isCloseTo := fun _ pos => pos.x

/-- The state with line `exLine`, a running routing timer and an empty history. -/
def exState (idx : Int) (addPoint isPoint : Bool) : CLineOpAddPoint (List SGisLine) :=
  { points := exLine, idxFocus := idx, addPoint := addPoint, isPoint := isPoint,
    timerRouting := ⟨true, 1⟩, history := [], canvasPanning := false, canvasUpdates := [] }

/-- A press of the left button at pixel `(4, 6)`. -/
def exLeft : QMouseEvent := ⟨.LeftButton, ⟨4, 6⟩⟩

/-- A press of the right button at pixel `(4, 6)`. -/
def exRight : QMouseEvent := ⟨.RightButton, ⟨4, 6⟩⟩

/-- A builder with two source files selected, as it stands before the start button is
pressed. -/
def exBuilder : CRoutinoDatabaseBuilder :=
  { listWidget := ["a.pbf", "b.pbf"], labelTargetPath := "/maps", lineTargetPrefix := "eu",
    pushStart := true, textBrowser := [], sourceFiles := [], targetPrefix := "",
    targetPath := "", first := true, last := false, xmlTagging := "/tmp/tag.xml", cmd := [] }

/-- Draw contexts whose state is the zoom index: zooming in lowers it by one, zooming
out raises it by one, and a pixel is `2 ^ index` coordinate units wide. -/
def exOps : DrawOps Int where
  zoomInOut := fun zoomIn _ d => (if zoomIn then d - 1 else d + 1, .eRedrawAll)
  zoomIdx := fun d => d
  setZoomIdx := fun i _ => i
  convertPx2Rad := fun d p => ⟨p.x * 2 ^ d.toNat, p.y * 2 ^ d.toNat⟩
  convertRad2Px := fun d p => ⟨p.x / 2 ^ d.toNat, p.y / 2 ^ d.toNat⟩

/-- A canvas with all contexts at zoom index 3 and the given wheel accumulator. -/
def exCanvas (acc : Int) : CCanvas Int :=
  { contexts := ⟨3, 3, 3, 3⟩, allDrawContext := CCanvas.allDrawContextInit,
    posFocus := ⟨16, 8⟩, zoomAngleDelta := acc, needsRedraw := .eRedrawMouse, calls := [] }

/-- A wheel event of the given angle at pixel `(10, 20)`. -/
def exWheel (dy : Int) : QWheelEvent := ⟨⟨0, dy⟩, dy, ⟨10, 20⟩⟩

/-- Mouse moves to the pixels `(7, 9)` and `(8, 9)`. -/
def exMoves : List QMouseEvent := [⟨.OtherButton, ⟨7, 9⟩⟩, ⟨.OtherButton, ⟨8, 9⟩⟩]

/-- The operations of `exOps`, with flags that combine to `eRedrawAll` as soon as one of
them is `eRedrawAll`, a widget whose origin is at the global position `(5, 7)`, a zoom to
a rectangle that chooses index 5 for rectangles wider than 100 and index 2 otherwise,
projections and scales that do not change a context, and a configuration whose `scales`
entry gives the zoom index of the map. -/
def exCanvasOps : CanvasOps Int where
  toDrawOps := exOps
  redrawOr := fun a b => if a = .eRedrawAll then .eRedrawAll else b
  mapFromGlobal := fun p => ⟨p.x - 5, p.y - 7⟩
  zoomRect := fun r _ => if r.width > 100 then 5 else 2
  setProjection := fun _ d => d
  getProjection := fun _ => "merc"
  setScales := fun _ d => d
  getScalesType := fun _ => 0
  mapLoadConfig := fun cfg d => cfg.scales.getD d
  demLoadConfig := fun _ d => d

/-- The canvas `exCanvas 0` as a widget of 801 by 601 pixels. -/
def exSizedCanvas : CCanvas Int := { exCanvas 0 with width := 801, height := 601 }


/-! ## Lemmas on the vector operations -/

section VectorLemmas

variable {α : Type}

theorem qvInsert_eq_some {v : List α} {i : Int} (x : α) (h0 : 0 ≤ i)
    (h1 : i ≤ (v.length : Int)) :
    qvInsert v i x = some (v.take i.toNat ++ x :: v.drop i.toNat) := by
  unfold qvInsert
  rw [if_pos ⟨h0, h1⟩]

theorem qvInsert_length {v w : List α} {i : Int} {x : α} (h : qvInsert v i x = some w) :
    w.length = v.length + 1 := by
  unfold qvInsert at h
  split at h
  · rename_i hi
    have hk : i.toNat ≤ v.length := by omega
    injection h with h
    subst h
    simp only [List.length_append, List.length_cons, List.length_take, List.length_drop]
    omega
  · cases h

/-- The elements before the insertion index keep their index. -/
theorem insertAt_get_lt (v : List α) (k j : Nat) (x : α) (hj : j < k) (hk : k ≤ v.length) :
    (v.take k ++ x :: v.drop k)[j]? = v[j]? := by
  rw [List.getElem?_append_left (by simp; omega)]
  rw [List.getElem?_take_of_lt hj]

/-- The inserted element sits at the insertion index. -/
theorem insertAt_get_eq (v : List α) (k : Nat) (x : α) (hk : k ≤ v.length) :
    (v.take k ++ x :: v.drop k)[k]? = some x := by
  rw [List.getElem?_append_right (by simp)]
  simp [Nat.min_eq_left hk]

/-- The elements from the insertion index on move up by one. -/
theorem insertAt_get_gt (v : List α) (k j : Nat) (x : α) (hj : k ≤ j) (hk : k ≤ v.length) :
    (v.take k ++ x :: v.drop k)[j + 1]? = v[j]? := by
  rw [List.getElem?_append_right (by simp; omega)]
  simp only [List.length_take, Nat.min_eq_left hk]
  have : j + 1 - k = (j - k) + 1 := by omega
  rw [this, List.getElem?_cons_succ, List.getElem?_drop]
  congr 1
  omega

/-- Removing the inserted element gives the old vector back. -/
theorem insertAt_eraseIdx (v : List α) (k : Nat) (x : α) (hk : k ≤ v.length) :
    (v.take k ++ x :: v.drop k).eraseIdx k = v := by
  rw [List.eraseIdx_append_of_length_le (by simp)]
  simp [Nat.min_eq_left hk]

theorem qvModify_eq_some {v : List α} {i : Int} (f : α → α) (h : validIdx v i) :
    qvModify v i f = some (v.modify f i.toNat) := by
  unfold qvModify
  rw [if_pos h]

theorem validIdx_toNat_lt {v : List α} {i : Int} (h : validIdx v i) : i.toNat < v.length := by
  unfold validIdx at h
  omega

end VectorLemmas

/-! ## Properties of the add-point operation -/

namespace CLineOpAddPoint

variable {H : Type}

/-- C1: `append` on a non-empty line of `n` points returns a state in which the line has
`n + 1` points, the first `n` points are the old line (same points, same order), the point
at index `n` is a copy of the former last point, `idxFocus = n`, `addPoint` and `isPoint`
are both true and canvas panning has been set to true. -/
theorem append_spec (s : CLineOpAddPoint H) (hne : s.points ≠ []) :
    ∃ s1 last, append s = some s1 ∧ s.points.getLast? = some last ∧
      s1.points.length = s.points.length + 1 ∧
      s1.points.take s.points.length = s.points ∧
      s1.points[s.points.length]? = some last ∧
      s1.idxFocus = (s.points.length : Int) ∧
      s1.addPoint = true ∧ s1.isPoint = true ∧ s1.canvasPanning = true := by
  obtain ⟨last, hlast⟩ : ∃ last, s.points.getLast? = some last := by
    cases hp : s.points.getLast? with
    | none => exact absurd (List.getLast?_eq_none_iff.mp hp) hne
    | some l => exact ⟨l, rfl⟩
  have hins : qvInsert s.points (s.points.length : Int) last = some (s.points ++ [last]) := by
    rw [qvInsert_eq_some last (by omega) (le_refl _)]
    simp
  have happ : append s = some
      { s with
        idxFocus := (s.points.length : Int)
        points := s.points ++ [last]
        addPoint := true
        isPoint := true
        canvasPanning := true } := by
    simp only [append, qvLast, hlast, hins, Option.bind_eq_bind, Option.some_bind,
      Option.pure_def, setCanvasPanning]
  refine ⟨_, last, happ, hlast, ?_, ?_, ?_, rfl, rfl, rfl, rfl⟩
  · simp
  · simp
  · simp

/-- Witness for C1 on the line `exLine` of three points. -/
theorem append_spec_witness :
    ∃ s1 last, append (exState (-1) false false) = some s1 ∧
      (exState (-1) false false).points.getLast? = some last ∧
      s1.points.length = (exState (-1) false false).points.length + 1 ∧
      s1.points.take (exState (-1) false false).points.length
        = (exState (-1) false false).points ∧
      s1.points[(exState (-1) false false).points.length]? = some last ∧
      s1.idxFocus = ((exState (-1) false false).points.length : Int) ∧
      s1.addPoint = true ∧ s1.isPoint = true ∧ s1.canvasPanning = true :=
  append_spec (exState (-1) false false) (by simp [exState, exLine])

theorem mousePressEventEx_left (env : LineEnv H) (e : QMouseEvent) (s : CLineOpAddPoint H)
    (hb : e.button = MouseButton.LeftButton) :
    mousePressEventEx env e s = (pressLeft env e s).map pressFinish := by
  simp only [mousePressEventEx, hb]

theorem mousePressEventEx_right (env : LineEnv H) (e : QMouseEvent) (s : CLineOpAddPoint H)
    (hb : e.button = MouseButton.RightButton) :
    mousePressEventEx env e s = some (pressFinish (pressRight env s)) := by
  simp only [mousePressEventEx, hb, Option.map_some']

/-- The state after a left press in append/prepend mode, when the insertion index is in
range. -/
theorem pressLeft_append_mode (env : LineEnv H) (e : QMouseEvent) (s : CLineOpAddPoint H)
    (ha : s.addPoint = true) (hp : s.isPoint = true)
    (hidx : validIdx (env.slotTimeoutRouting s.points s.idxFocus s.timerRouting).1 s.idxFocus) :
    pressLeft env e s = some
      { s with
        points :=
          (env.slotTimeoutRouting s.points s.idxFocus s.timerRouting).1.take
              (if s.idxFocus =
                  ((env.slotTimeoutRouting s.points s.idxFocus s.timerRouting).1.length : Int) - 1
                then s.idxFocus + 1 else s.idxFocus).toNat ++
            point_t.ofCoord (env.convertPx2Rad e.pos.toPointF) ::
              (env.slotTimeoutRouting s.points s.idxFocus s.timerRouting).1.drop
                (if s.idxFocus =
                    ((env.slotTimeoutRouting s.points s.idxFocus s.timerRouting).1.length : Int) - 1
                  then s.idxFocus + 1 else s.idxFocus).toNat
        timerRouting := (env.slotTimeoutRouting s.points s.idxFocus s.timerRouting).2
        idxFocus :=
          if s.idxFocus =
              ((env.slotTimeoutRouting s.points s.idxFocus s.timerRouting).1.length : Int) - 1
            then s.idxFocus + 1 else s.idxFocus
        history := env.storeToHistory s.history
          (env.slotTimeoutRouting s.points s.idxFocus s.timerRouting).1 } := by
  obtain ⟨h0, h1⟩ := hidx
  simp only [pressLeft, ha, hp, if_true]
  rw [qvInsert_eq_some _ (by split <;> omega) (by split <;> omega)]
  rfl

/-- C2: a left press in append/prepend mode (`addPoint` and `isPoint` true, `idxFocus` a
valid index of the line of `n` points, the routing update keeping the number of points).
The line handed to `storeToHistory` is the `n`-point line after the routing update and
before the insertion; afterwards the line has `n + 1` points, removing the new point gives
that `n`-point line back (the old points keep their order), the new point is the point
constructed from `convertPx2Rad` of the click position, it sits at index `n` if `idxFocus`
was `n - 1` and otherwise at the unchanged `idxFocus`, directly before the point that had
this index; `idxFocus` is the index of the new point and `addPoint`, `isPoint` stay true. -/
theorem mousePress_left_append_mode (env : LineEnv H) (e : QMouseEvent)
    (s : CLineOpAddPoint H) (hb : e.button = MouseButton.LeftButton)
    (ha : s.addPoint = true) (hp : s.isPoint = true) (hidx : validIdx s.points s.idxFocus)
    (hlen : (env.slotTimeoutRouting s.points s.idxFocus s.timerRouting).1.length
      = s.points.length) :
    ∃ s1, mousePressEventEx env e s = some s1 ∧
      s1.history = env.storeToHistory s.history
        (env.slotTimeoutRouting s.points s.idxFocus s.timerRouting).1 ∧
      s1.points.length = s.points.length + 1 ∧
      s1.idxFocus = (if s.idxFocus = (s.points.length : Int) - 1
        then (s.points.length : Int) else s.idxFocus) ∧
      s1.points[s1.idxFocus.toNat]? =
        some (point_t.ofCoord (env.convertPx2Rad e.pos.toPointF)) ∧
      s1.points.eraseIdx s1.idxFocus.toNat =
        (env.slotTimeoutRouting s.points s.idxFocus s.timerRouting).1 ∧
      (s.idxFocus ≠ (s.points.length : Int) - 1 →
        s1.points[s.idxFocus.toNat + 1]? =
          (env.slotTimeoutRouting s.points s.idxFocus s.timerRouting).1[s.idxFocus.toNat]?) ∧
      s1.addPoint = true ∧ s1.isPoint = true := by
  have hidx1 : validIdx (env.slotTimeoutRouting s.points s.idxFocus s.timerRouting).1
      s.idxFocus := by
    unfold validIdx at hidx ⊢
    rw [hlen]; exact hidx
  obtain ⟨h0, h1⟩ := hidx
  have hpl := pressLeft_append_mode env e s ha hp hidx1
  generalize hr : env.slotTimeoutRouting s.points s.idxFocus s.timerRouting = r at hpl hlen ⊢
  generalize hi : (if s.idxFocus = (r.1.length : Int) - 1 then s.idxFocus + 1 else s.idxFocus)
    = idx at hpl
  have hidx0 : 0 ≤ idx := by subst hi; split <;> omega
  have hidxn : idx.toNat ≤ r.1.length := by subst hi; split <;> omega
  have hidxeq : idx = (if s.idxFocus = (s.points.length : Int) - 1
      then (s.points.length : Int) else s.idxFocus) := by
    subst hi; rw [hlen]; split <;> omega
  rw [mousePressEventEx_left env e s hb, hpl, Option.map_some']
  refine ⟨_, rfl, ?_, ?_, ?_, ?_, ?_, ?_, ?_, ?_⟩
  · rfl
  · simp only [pressFinish, setCanvasPanning, slotTriggerCompleteUpdate, List.length_append,
      List.length_cons, List.length_take, List.length_drop]
    omega
  · exact hidxeq
  · exact insertAt_get_eq r.1 idx.toNat _ hidxn
  · exact insertAt_eraseIdx r.1 idx.toNat _ hidxn
  · intro hne
    have : idx = s.idxFocus := by rw [hidxeq, if_neg hne]
    simp only [pressFinish, setCanvasPanning, slotTriggerCompleteUpdate]
    rw [this]
    exact insertAt_get_gt r.1 s.idxFocus.toNat s.idxFocus.toNat _ (le_refl _) (by omega)
  · exact ha
  · exact hp

/-- Witness for C2: a left press while the last point of `exLine` is the floating one. -/
theorem mousePress_left_append_mode_witness :
    ∃ s1, mousePressEventEx exEnv exLeft (exState 2 true true) = some s1 ∧
      s1.history = exEnv.storeToHistory (exState 2 true true).history
        (exEnv.slotTimeoutRouting (exState 2 true true).points (exState 2 true true).idxFocus
          (exState 2 true true).timerRouting).1 ∧
      s1.points.length = (exState 2 true true).points.length + 1 ∧
      s1.idxFocus = (if (exState 2 true true).idxFocus
          = ((exState 2 true true).points.length : Int) - 1
        then ((exState 2 true true).points.length : Int) else (exState 2 true true).idxFocus) ∧
      s1.points[s1.idxFocus.toNat]? =
        some (point_t.ofCoord (exEnv.convertPx2Rad exLeft.pos.toPointF)) ∧
      s1.points.eraseIdx s1.idxFocus.toNat =
        (exEnv.slotTimeoutRouting (exState 2 true true).points (exState 2 true true).idxFocus
          (exState 2 true true).timerRouting).1 ∧
      ((exState 2 true true).idxFocus ≠ ((exState 2 true true).points.length : Int) - 1 →
        s1.points[(exState 2 true true).idxFocus.toNat + 1]? =
          (exEnv.slotTimeoutRouting (exState 2 true true).points
            (exState 2 true true).idxFocus
            (exState 2 true true).timerRouting).1[(exState 2 true true).idxFocus.toNat]?) ∧
      s1.addPoint = true ∧ s1.isPoint = true :=
  mousePress_left_append_mode exEnv exLeft (exState 2 true true) rfl rfl rfl
    (by decide) rfl

/-- C3: a right press always ends with `addPoint = false`, `idxFocus = NOIDX` and canvas
panning set to false. If `addPoint` was true, the routing timer is stopped and the line is
the one given by `restoreFromHistory`; if `addPoint` was false, the line, the history and
the routing timer are unchanged. -/
theorem mousePress_right (env : LineEnv H) (e : QMouseEvent) (s : CLineOpAddPoint H)
    (hb : e.button = MouseButton.RightButton) :
    ∃ s1, mousePressEventEx env e s = some s1 ∧
      s1.addPoint = false ∧ s1.idxFocus = env.NOIDX ∧ s1.canvasPanning = false ∧
      (s.addPoint = true →
        s1.timerRouting = s.timerRouting.stop ∧ s1.timerRouting.isActive = false ∧
        s1.points = (env.restoreFromHistory s.history s.points).2 ∧
        s1.history = (env.restoreFromHistory s.history s.points).1) ∧
      (s.addPoint = false →
        s1.points = s.points ∧ s1.history = s.history ∧ s1.timerRouting = s.timerRouting) := by
  rw [mousePressEventEx_right env e s hb]
  refine ⟨_, rfl, ?_⟩
  cases ha : s.addPoint <;>
    simp [pressFinish, pressRight, setCanvasPanning, slotTriggerCompleteUpdate, ha,
      QTimer.stop]

/-- Witness for C3: a right press while a point of `exLine` is floating. -/
theorem mousePress_right_witness :
    ∃ s1, mousePressEventEx exEnv exRight (exState 2 true true) = some s1 ∧
      s1.addPoint = false ∧ s1.idxFocus = exEnv.NOIDX ∧ s1.canvasPanning = false ∧
      ((exState 2 true true).addPoint = true →
        s1.timerRouting = (exState 2 true true).timerRouting.stop ∧
        s1.timerRouting.isActive = false ∧
        s1.points = (exEnv.restoreFromHistory (exState 2 true true).history
          (exState 2 true true).points).2 ∧
        s1.history = (exEnv.restoreFromHistory (exState 2 true true).history
          (exState 2 true true).points).1) ∧
      ((exState 2 true true).addPoint = false →
        s1.points = (exState 2 true true).points ∧
        s1.history = (exState 2 true true).history ∧
        s1.timerRouting = (exState 2 true true).timerRouting) :=
  mousePress_right exEnv exRight (exState 2 true true) rfl

/-- The state after a left press on a highlighted segment. -/
theorem pressLeft_segment (env : LineEnv H) (e : QMouseEvent) (s : CLineOpAddPoint H)
    (ha : s.addPoint = false) (hp : s.isPoint = false) (hidx : validIdx s.points s.idxFocus) :
    pressLeft env e s = some
      { s with
        points :=
          (s.points.modify point_t.clearSubpts s.idxFocus.toNat).take (s.idxFocus + 1).toNat ++
            point_t.ofCoord (env.convertPx2Rad e.pos.toPointF) ::
              (s.points.modify point_t.clearSubpts s.idxFocus.toNat).drop
                (s.idxFocus + 1).toNat
        idxFocus := s.idxFocus + 1
        addPoint := true } := by
  have h := hidx
  obtain ⟨h0, h1⟩ := h
  simp only [pressLeft, ha, hp, Bool.false_eq_true, if_false]
  rw [qvModify_eq_some _ hidx, Option.some_bind,
    qvInsert_eq_some _ (by omega) (by rw [List.length_modify]; omega)]
  rfl

/-- C4: a left press while a segment is highlighted (`addPoint` and `isPoint` false,
`idxFocus = i` a valid index of the line of `n` points). Afterwards the line has `n + 1`
points, the new point (constructed from `convertPx2Rad` of the click position) sits at
index `i + 1`, the points formerly at `0..i` keep their index and those formerly at
`i+1..n-1` move up by one, point `i` has its sub-points cleared and every other old point
is unchanged, `idxFocus = i + 1`, `addPoint = true`, `isPoint` stays false and the history
is unchanged. -/
theorem mousePress_left_segment (env : LineEnv H) (e : QMouseEvent) (s : CLineOpAddPoint H)
    (hb : e.button = MouseButton.LeftButton)
    (ha : s.addPoint = false) (hp : s.isPoint = false) (hidx : validIdx s.points s.idxFocus) :
    ∃ s1, mousePressEventEx env e s = some s1 ∧
      s1.points.length = s.points.length + 1 ∧
      s1.points[s.idxFocus.toNat + 1]? =
        some (point_t.ofCoord (env.convertPx2Rad e.pos.toPointF)) ∧
      (∀ k : Nat, k < s.idxFocus.toNat → s1.points[k]? = s.points[k]?) ∧
      s1.points[s.idxFocus.toNat]? = (s.points[s.idxFocus.toNat]?).map point_t.clearSubpts ∧
      (∀ k : Nat, s.idxFocus.toNat + 1 ≤ k → s1.points[k + 1]? = s.points[k]?) ∧
      s1.idxFocus = s.idxFocus + 1 ∧ s1.addPoint = true ∧ s1.isPoint = false ∧
      s1.history = s.history := by
  have h := hidx
  obtain ⟨h0, h1⟩ := h
  have hi : (s.idxFocus + 1).toNat = s.idxFocus.toNat + 1 := by omega
  have hn : s.idxFocus.toNat + 1 ≤ (s.points.modify point_t.clearSubpts s.idxFocus.toNat).length := by
    rw [List.length_modify]; omega
  rw [mousePressEventEx_left env e s hb, pressLeft_segment env e s ha hp hidx,
    Option.map_some', hi]
  refine ⟨_, rfl, ?_, ?_, ?_, ?_, ?_, rfl, rfl, hp, rfl⟩
  · simp only [pressFinish, setCanvasPanning, slotTriggerCompleteUpdate, List.length_append,
      List.length_cons, List.length_take, List.length_drop, List.length_modify]
    omega
  · exact insertAt_get_eq _ _ _ hn
  · intro k hk
    simp only [pressFinish, setCanvasPanning, slotTriggerCompleteUpdate]
    rw [insertAt_get_lt _ _ _ _ (by omega) hn, List.getElem?_modify_ne _ _ (by omega)]
  · simp only [pressFinish, setCanvasPanning, slotTriggerCompleteUpdate]
    rw [insertAt_get_lt _ _ _ _ (by omega) hn, List.getElem?_modify_eq]
    rfl
  · intro k hk
    simp only [pressFinish, setCanvasPanning, slotTriggerCompleteUpdate]
    rw [insertAt_get_gt _ _ _ _ hk hn, List.getElem?_modify_ne _ _ (by omega)]

/-- Witness for C4: a left press on the segment that starts at the second point of
`exLine`, the point with a routed sub-point. -/
theorem mousePress_left_segment_witness :
    ∃ s1, mousePressEventEx exEnv exLeft (exState 1 false false) = some s1 ∧
      s1.points.length = (exState 1 false false).points.length + 1 ∧
      s1.points[(exState 1 false false).idxFocus.toNat + 1]? =
        some (point_t.ofCoord (exEnv.convertPx2Rad exLeft.pos.toPointF)) ∧
      (∀ k : Nat, k < (exState 1 false false).idxFocus.toNat →
        s1.points[k]? = (exState 1 false false).points[k]?) ∧
      s1.points[(exState 1 false false).idxFocus.toNat]? =
        ((exState 1 false false).points[(exState 1 false false).idxFocus.toNat]?).map
          point_t.clearSubpts ∧
      (∀ k : Nat, (exState 1 false false).idxFocus.toNat + 1 ≤ k →
        s1.points[k + 1]? = (exState 1 false false).points[k]?) ∧
      s1.idxFocus = (exState 1 false false).idxFocus + 1 ∧ s1.addPoint = true ∧
      s1.isPoint = false ∧ s1.history = (exState 1 false false).history :=
  mousePress_left_segment exEnv exLeft (exState 1 false false) rfl rfl rfl (by decide)

/-- C5: a left press while `addPoint` is true and `isPoint` is false (the routing update
keeping the number of points) terminates the operation: the line after the routing update
is stored to the history and is the line afterwards, the number of points is unchanged,
`addPoint` becomes false, `idxFocus` becomes `NOIDX` and canvas panning is set to
false. -/
theorem mousePress_left_terminate (env : LineEnv H) (e : QMouseEvent) (s : CLineOpAddPoint H)
    (hb : e.button = MouseButton.LeftButton)
    (ha : s.addPoint = true) (hp : s.isPoint = false)
    (hlen : (env.slotTimeoutRouting s.points s.idxFocus s.timerRouting).1.length
      = s.points.length) :
    ∃ s1, mousePressEventEx env e s = some s1 ∧
      s1.history = env.storeToHistory s.history
        (env.slotTimeoutRouting s.points s.idxFocus s.timerRouting).1 ∧
      s1.points = (env.slotTimeoutRouting s.points s.idxFocus s.timerRouting).1 ∧
      s1.points.length = s.points.length ∧
      s1.addPoint = false ∧ s1.idxFocus = env.NOIDX ∧ s1.canvasPanning = false := by
  have hpl : pressLeft env e s = some
      { s with
        points := (env.slotTimeoutRouting s.points s.idxFocus s.timerRouting).1
        timerRouting := (env.slotTimeoutRouting s.points s.idxFocus s.timerRouting).2
        history := env.storeToHistory s.history
          (env.slotTimeoutRouting s.points s.idxFocus s.timerRouting).1
        addPoint := false
        idxFocus := env.NOIDX } := by
    simp only [pressLeft, ha, hp, Bool.false_eq_true, if_true, if_false]
  rw [mousePressEventEx_left env e s hb, hpl, Option.map_some']
  exact ⟨_, rfl, rfl, rfl, hlen, rfl, rfl, rfl⟩

/-- Witness for C5: the left press that drops a point inserted into a segment of
`exLine`. -/
theorem mousePress_left_terminate_witness :
    ∃ s1, mousePressEventEx exEnv exLeft (exState 1 true false) = some s1 ∧
      s1.history = exEnv.storeToHistory (exState 1 true false).history
        (exEnv.slotTimeoutRouting (exState 1 true false).points
          (exState 1 true false).idxFocus (exState 1 true false).timerRouting).1 ∧
      s1.points = (exEnv.slotTimeoutRouting (exState 1 true false).points
        (exState 1 true false).idxFocus (exState 1 true false).timerRouting).1 ∧
      s1.points.length = (exState 1 true false).points.length ∧
      s1.addPoint = false ∧ s1.idxFocus = exEnv.NOIDX ∧ s1.canvasPanning = false :=
  mousePress_left_terminate exEnv exLeft (exState 1 true false) rfl rfl rfl rfl

/-- The state after a left press on a highlighted point, when the insertion index is in
range. -/
theorem pressLeft_point (env : LineEnv H) (e : QMouseEvent) (s : CLineOpAddPoint H)
    (ha : s.addPoint = false) (hp : s.isPoint = true)
    (h0 : 0 ≤ s.idxFocus ∨ s.idxFocus = (s.points.length : Int) - 1)
    (h1 : s.idxFocus ≤ (s.points.length : Int)) :
    pressLeft env e s = some
      { s with
        points :=
          s.points.take
              (if s.idxFocus = (s.points.length : Int) - 1
                then s.idxFocus + 1 else s.idxFocus).toNat ++
            point_t.ofCoord (env.convertPx2Rad e.pos.toPointF) ::
              s.points.drop
                (if s.idxFocus = (s.points.length : Int) - 1
                  then s.idxFocus + 1 else s.idxFocus).toNat
        idxFocus :=
          if s.idxFocus = (s.points.length : Int) - 1 then s.idxFocus + 1 else s.idxFocus
        addPoint := true } := by
  simp only [pressLeft, ha, hp, Bool.false_eq_true, if_true, if_false]
  rw [qvInsert_eq_some _ (by split <;> omega) (by split <;> omega)]
  rfl

/-- C7: a mouse move while `addPoint` is true and `idxFocus = i` is a valid index. The
number of points is unchanged; point `i` gets the coordinate `convertPx2Rad` of the mouse
position and loses its sub-points, its pixel position being kept; when `i > 0`, point
`i - 1` loses its sub-points; every other point is unchanged; `addPoint`, `isPoint` and
`idxFocus` are unchanged; the routing timer is started again; the history is unchanged. -/
theorem mouseMove_addPoint (env : LineEnv H) (e : QMouseEvent) (s : CLineOpAddPoint H)
    (ha : s.addPoint = true) (hidx : validIdx s.points s.idxFocus) :
    ∃ s1, mouseMoveEventEx env e s = some s1 ∧
      s1.points.length = s.points.length ∧
      s1.points[s.idxFocus.toNat]? = (s.points[s.idxFocus.toNat]?).map
        (fun pt => { pt with coord := env.convertPx2Rad e.pos.toPointF, subpts := [] }) ∧
      (0 < s.idxFocus → s1.points[s.idxFocus.toNat - 1]? =
        (s.points[s.idxFocus.toNat - 1]?).map point_t.clearSubpts) ∧
      (∀ k : Nat, k ≠ s.idxFocus.toNat → k + 1 ≠ s.idxFocus.toNat →
        s1.points[k]? = s.points[k]?) ∧
      s1.addPoint = s.addPoint ∧ s1.isPoint = s.isPoint ∧ s1.idxFocus = s.idxFocus ∧
      s1.timerRouting = s.timerRouting.start ∧ s1.timerRouting.isActive = true ∧
      s1.history = s.history := by
  have h := hidx
  obtain ⟨h0, h1⟩ := h
  by_cases hpos : s.idxFocus > 0
  · have hidx1 : validIdx (s.points.modify (fun pt : point_t =>
        { pt with coord := env.convertPx2Rad e.pos.toPointF, subpts := [] })
        s.idxFocus.toNat) (s.idxFocus - 1) := by
      unfold validIdx
      rw [List.length_modify]
      omega
    have hi : (s.idxFocus - 1).toNat = s.idxFocus.toNat - 1 := by omega
    have hm : mouseMoveEventEx env e s = some (slotTriggerCompleteUpdate .eRedrawMouse
        { s with
          points := (s.points.modify (fun pt : point_t =>
            { pt with coord := env.convertPx2Rad e.pos.toPointF, subpts := [] })
            s.idxFocus.toNat).modify point_t.clearSubpts (s.idxFocus.toNat - 1)
          timerRouting := s.timerRouting.start }) := by
      simp only [mouseMoveEventEx, ha, if_true, qvModify_eq_some _ hidx, Option.some_bind,
        if_pos hpos, qvModify_eq_some _ hidx1, Option.map_some', hi]
    rw [hm]
    refine ⟨_, rfl, ?_, ?_, ?_, ?_, rfl, rfl, rfl, rfl, rfl, rfl⟩
    · simp [slotTriggerCompleteUpdate]
    · simp only [slotTriggerCompleteUpdate]
      rw [List.getElem?_modify_ne _ _ (by omega), List.getElem?_modify_eq]
      rfl
    · intro _
      simp only [slotTriggerCompleteUpdate]
      rw [List.getElem?_modify_eq, List.getElem?_modify_ne _ _ (by omega)]
      rfl
    · intro k hk1 hk2
      simp only [slotTriggerCompleteUpdate]
      rw [List.getElem?_modify_ne _ _ (by omega), List.getElem?_modify_ne _ _ (by omega)]
  · have hm : mouseMoveEventEx env e s = some (slotTriggerCompleteUpdate .eRedrawMouse
        { s with
          points := s.points.modify (fun pt : point_t =>
            { pt with coord := env.convertPx2Rad e.pos.toPointF, subpts := [] })
            s.idxFocus.toNat
          timerRouting := s.timerRouting.start }) := by
      simp only [mouseMoveEventEx, ha, if_true, qvModify_eq_some _ hidx, Option.some_bind,
        if_neg hpos, Option.map_some']
    rw [hm]
    refine ⟨_, rfl, ?_, ?_, ?_, ?_, rfl, rfl, rfl, rfl, rfl, rfl⟩
    · simp [slotTriggerCompleteUpdate]
    · simp only [slotTriggerCompleteUpdate]
      rw [List.getElem?_modify_eq]
      rfl
    · intro hp
      exact absurd hp hpos
    · intro k hk1 _
      simp only [slotTriggerCompleteUpdate]
      rw [List.getElem?_modify_ne _ _ (by omega)]

/-- Witness for C7: a mouse move while the last point of `exLine` is floating; its
predecessor carries a routed sub-point. -/
theorem mouseMove_addPoint_witness :
    ∃ s1, mouseMoveEventEx exEnv exLeft (exState 2 true true) = some s1 ∧
      s1.points.length = (exState 2 true true).points.length ∧
      s1.points[(exState 2 true true).idxFocus.toNat]? =
        ((exState 2 true true).points[(exState 2 true true).idxFocus.toNat]?).map
          (fun pt => { pt with coord := exEnv.convertPx2Rad exLeft.pos.toPointF,
                               subpts := [] }) ∧
      (0 < (exState 2 true true).idxFocus →
        s1.points[(exState 2 true true).idxFocus.toNat - 1]? =
          ((exState 2 true true).points[(exState 2 true true).idxFocus.toNat - 1]?).map
            point_t.clearSubpts) ∧
      (∀ k : Nat, k ≠ (exState 2 true true).idxFocus.toNat →
        k + 1 ≠ (exState 2 true true).idxFocus.toNat →
        s1.points[k]? = (exState 2 true true).points[k]?) ∧
      s1.addPoint = (exState 2 true true).addPoint ∧
      s1.isPoint = (exState 2 true true).isPoint ∧
      s1.idxFocus = (exState 2 true true).idxFocus ∧
      s1.timerRouting = (exState 2 true true).timerRouting.start ∧
      s1.timerRouting.isActive = true ∧
      s1.history = (exState 2 true true).history :=
  mouseMove_addPoint exEnv exLeft (exState 2 true true) rfl (by decide)

/-- C8: a mouse move while `addPoint` is false leaves the line, the routing timer, the
history and `addPoint` unchanged and recomputes the focus: if `isCloseToLine(pos)` is not
`NOIDX`, `idxFocus` is that segment index and `isPoint` is false; otherwise `idxFocus` is
`isCloseTo(pos)` and `isPoint` is true. Hence afterwards `isPoint = false` implies
`idxFocus ≠ NOIDX`. -/
theorem mouseMove_hover (env : LineEnv H) (e : QMouseEvent) (s : CLineOpAddPoint H)
    (ha : s.addPoint = false) :
    ∃ s1, mouseMoveEventEx env e s = some s1 ∧
      s1.points = s.points ∧ s1.timerRouting = s.timerRouting ∧ s1.history = s.history ∧
      s1.addPoint = false ∧
      (env.isCloseToLine s.points e.pos ≠ env.NOIDX →
        s1.idxFocus = env.isCloseToLine s.points e.pos ∧ s1.isPoint = false) ∧
      (env.isCloseToLine s.points e.pos = env.NOIDX →
        s1.idxFocus = env.isCloseTo s.points e.pos ∧ s1.isPoint = true) ∧
      (s1.isPoint = false → s1.idxFocus ≠ env.NOIDX) := by
  by_cases hc : env.isCloseToLine s.points e.pos = env.NOIDX
  · have hm : mouseMoveEventEx env e s = some (slotTriggerCompleteUpdate .eRedrawMouse
        { s with idxFocus := env.isCloseTo s.points e.pos, isPoint := true }) := by
      simp only [mouseMoveEventEx, ha, Bool.false_eq_true, if_false, if_pos hc,
        Option.map_some']
    rw [hm]
    refine ⟨_, rfl, rfl, rfl, rfl, ha, ?_, ?_, ?_⟩
    · intro h; exact absurd hc h
    · intro _; exact ⟨rfl, rfl⟩
    · intro h; simp [slotTriggerCompleteUpdate] at h
  · have hm : mouseMoveEventEx env e s = some (slotTriggerCompleteUpdate .eRedrawMouse
        { s with idxFocus := env.isCloseToLine s.points e.pos, isPoint := false }) := by
      simp only [mouseMoveEventEx, ha, Bool.false_eq_true, if_false, if_neg hc,
        Option.map_some']
    rw [hm]
    refine ⟨_, rfl, rfl, rfl, rfl, ha, ?_, ?_, ?_⟩
    · intro _; exact ⟨rfl, rfl⟩
    · intro h; exact absurd h hc
    · intro _; exact hc

/-- Witness for C8: a mouse move over `exLine` outside add mode. -/
theorem mouseMove_hover_witness :
    ∃ s1, mouseMoveEventEx exEnv exLeft (exState 1 false false) = some s1 ∧
      s1.points = (exState 1 false false).points ∧
      s1.timerRouting = (exState 1 false false).timerRouting ∧
      s1.history = (exState 1 false false).history ∧
      s1.addPoint = false ∧
      (exEnv.isCloseToLine (exState 1 false false).points exLeft.pos ≠ exEnv.NOIDX →
        s1.idxFocus = exEnv.isCloseToLine (exState 1 false false).points exLeft.pos ∧
        s1.isPoint = false) ∧
      (exEnv.isCloseToLine (exState 1 false false).points exLeft.pos = exEnv.NOIDX →
        s1.idxFocus = exEnv.isCloseTo (exState 1 false false).points exLeft.pos ∧
        s1.isPoint = true) ∧
      (s1.isPoint = false → s1.idxFocus ≠ exEnv.NOIDX) :=
  mouseMove_hover exEnv exLeft (exState 1 false false) rfl

end CLineOpAddPoint

/-! ## Properties of the Routino database builder -/

namespace CRoutinoDatabaseBuilder

theorem runFinished_nil (s : CRoutinoDatabaseBuilder) : runFinished [] s = s := rfl

theorem runFinished_cons (c : Int × ExitStatus) (cs : List (Int × ExitStatus))
    (s : CRoutinoDatabaseBuilder) :
    runFinished (c :: cs) s = runFinished cs (finished c.1 c.2 s) := rfl

/-- Once `last` is set, further invocations start no process; each of them reports done
and enables the start button. -/
theorem runFinished_of_last (codes : List (Int × ExitStatus)) :
    ∀ s : CRoutinoDatabaseBuilder, s.last = true →
      (runFinished codes s).cmd = s.cmd ∧
      (codes ≠ [] → (runFinished codes s).pushStart = true ∧
        (runFinished codes s).textBrowser.getLast? = some (.darkGreen "!!! done !!!\n")) := by
  induction codes with
  | nil => intro s _; exact ⟨rfl, fun h => absurd rfl h⟩
  | cons c cs ih =>
    intro s hl
    have hf : finished c.1 c.2 s =
        { s with
          textBrowser := s.textBrowser ++ [.darkGreen "!!! done !!!\n"]
          pushStart := true } := by
      simp only [finished, hl, if_true]
    rw [runFinished_cons, hf]
    obtain ⟨h1, h2⟩ := ih
      { s with
        textBrowser := s.textBrowser ++ [.darkGreen "!!! done !!!\n"]
        pushStart := true } hl
    refine ⟨h1, fun _ => ?_⟩
    cases cs with
    | nil => simp [runFinished_nil]
    | cons c1 cs1 => exact h2 (by simp)

/-- The invocations of `finished` from a state in which `k` source files have been parsed
already and the files `fs` are left. -/
theorem runFinished_from (T P X : String) (fs : List String) :
    ∀ (k : Nat) (codes : List (Int × ExitStatus)) (s : CRoutinoDatabaseBuilder),
      s.last = false → s.sourceFiles = fs → (s.first = true ↔ k = 0) →
      s.targetPath = T → s.targetPrefix = P → s.xmlTagging = X →
      (runFinished codes s).cmd = s.cmd ++
        (((fs.enumFrom k).map fun p => specParse T P X p.1 p.2) ++
          [specProcess T P X]).take codes.length ∧
      (codes.length ≤ fs.length + 1 → (runFinished codes s).pushStart = s.pushStart) ∧
      (fs.length + 2 ≤ codes.length → (runFinished codes s).pushStart = true ∧
        (runFinished codes s).textBrowser.getLast? = some (.darkGreen "!!! done !!!\n")) := by
  induction fs with
  | nil =>
    intro k codes s hl hs _ hT hP hX
    cases codes with
    | nil => simp [runFinished_nil]
    | cons c cs =>
      have hf : finished c.1 c.2 s =
          { startPlanetsplitter (specProcess T P X).args s with last := true } := by
        simp only [finished, specProcess, hl, hs, hT, hP, hX, Bool.false_eq_true, if_false]
      obtain ⟨h1, h2⟩ := runFinished_of_last cs (finished c.1 c.2 s) (by rw [hf])
      rw [runFinished_cons]
      refine ⟨?_, ?_, ?_⟩
      · rw [h1, hf]
        simp [startPlanetsplitter, specProcess]
      · intro hlen
        have : cs = [] := by
          cases cs with
          | nil => rfl
          | cons _ _ => simp at hlen
        subst this
        rw [runFinished_nil, hf]
        rfl
      · intro hlen
        exact h2 (by
          intro h
          subst h
          simp at hlen)
  | cons f rest ih =>
    intro k codes s hl hs hk hT hP hX
    cases codes with
    | nil => simp [runFinished_nil]
    | cons c cs =>
      have hf : finished c.1 c.2 s =
          startPlanetsplitter (specParse T P X k f).args
            { s with first := false, sourceFiles := rest } := by
        by_cases hk0 : k = 0
        · have hfirst : s.first = true := hk.mpr hk0
          simp only [finished, specParse, hl, hs, hT, hP, hX, hfirst, hk0, Bool.false_eq_true,
            if_false, if_true, List.cons_append, List.nil_append]
        · have hfirst : s.first = false := by
            cases h : s.first with
            | false => rfl
            | true => exact absurd (hk.mp h) hk0
          simp only [finished, specParse, hl, hs, hT, hP, hX, hfirst, hk0, Bool.false_eq_true,
            if_false, List.cons_append, List.nil_append]
      obtain ⟨h1, h2, h3⟩ := ih (k + 1) cs (finished c.1 c.2 s)
        (by rw [hf]; exact hl) (by rw [hf]; rfl) (by rw [hf]; simp [startPlanetsplitter])
        (by rw [hf]; exact hT) (by rw [hf]; exact hP) (by rw [hf]; exact hX)
      rw [runFinished_cons]
      refine ⟨?_, ?_, ?_⟩
      · rw [h1, hf]
        simp [startPlanetsplitter, List.enumFrom_cons, specParse]
      · intro hlen
        rw [h2 (by simpa using hlen), hf]
        rfl
      · intro hlen
        exact h3 (by simpa using hlen)

/-- C9: after `slotStart` has captured the source files `f1..fn` (the items of the list
widget), the target path `T` and the prefix `P`, successive invocations of `finished`,
whatever exit codes and exit statuses they are given, start exactly the first
`codes.length` commands of the sequence of `n + 1` commands `specCommands T P X [f1..fn]`
(parse `f1`, parse-and-append `f2` .. `fn`, then process). Up to invocation `n + 1` the start
button stays disabled; invocation `n + 2` starts no process, so that all `n + 1` commands and
no other have been started, reports done and enables the start button. -/
theorem finished_command_sequence (s : CRoutinoDatabaseBuilder)
    (codes : List (Int × ExitStatus)) :
    (runFinished codes (slotStartCapture s)).cmd = s.cmd ++
      (specCommands s.labelTargetPath s.lineTargetPrefix s.xmlTagging s.listWidget).take
        codes.length ∧
    (specCommands s.labelTargetPath s.lineTargetPrefix s.xmlTagging s.listWidget).length
      = s.listWidget.length + 1 ∧
    (codes.length ≤ s.listWidget.length + 1 →
      (runFinished codes (slotStartCapture s)).pushStart = false) ∧
    (codes.length = s.listWidget.length + 2 →
      (runFinished codes (slotStartCapture s)).cmd = s.cmd ++
        specCommands s.labelTargetPath s.lineTargetPrefix s.xmlTagging s.listWidget ∧
      (runFinished codes (slotStartCapture s)).pushStart = true ∧
      (runFinished codes (slotStartCapture s)).textBrowser.getLast? =
        some (.darkGreen "!!! done !!!\n")) := by
  obtain ⟨h1, h2, h3⟩ := runFinished_from s.labelTargetPath s.lineTargetPrefix s.xmlTagging
    s.listWidget 0 codes (slotStartCapture s) rfl rfl (by simp [slotStartCapture]) rfl rfl rfl
  have hlen : (specCommands s.labelTargetPath s.lineTargetPrefix s.xmlTagging
      s.listWidget).length = s.listWidget.length + 1 := by
    simp [specCommands, List.enum]
  have h1' : (runFinished codes (slotStartCapture s)).cmd = s.cmd ++
      (specCommands s.labelTargetPath s.lineTargetPrefix s.xmlTagging s.listWidget).take
        codes.length := h1
  refine ⟨h1', hlen, h2, fun hc => ⟨?_, h3 (by omega)⟩⟩
  rw [h1', List.take_of_length_le (by omega)]

/-- Witness for C9: four invocations of `finished` after the start with two source
files, with failing exit codes among them. -/
theorem finished_command_sequence_witness :
    (runFinished [(0, .NormalExit), (1, .CrashExit), (0, .NormalExit), (2, .CrashExit)]
        (slotStartCapture exBuilder)).cmd = exBuilder.cmd ++
      (specCommands exBuilder.labelTargetPath exBuilder.lineTargetPrefix exBuilder.xmlTagging
        exBuilder.listWidget).take
        [((0 : Int), ExitStatus.NormalExit), (1, .CrashExit), (0, .NormalExit),
          (2, .CrashExit)].length ∧
    (specCommands exBuilder.labelTargetPath exBuilder.lineTargetPrefix exBuilder.xmlTagging
        exBuilder.listWidget).length = exBuilder.listWidget.length + 1 ∧
    ([((0 : Int), ExitStatus.NormalExit), (1, .CrashExit), (0, .NormalExit),
        (2, .CrashExit)].length ≤ exBuilder.listWidget.length + 1 →
      (runFinished [(0, .NormalExit), (1, .CrashExit), (0, .NormalExit), (2, .CrashExit)]
        (slotStartCapture exBuilder)).pushStart = false) ∧
    ([((0 : Int), ExitStatus.NormalExit), (1, .CrashExit), (0, .NormalExit),
        (2, .CrashExit)].length = exBuilder.listWidget.length + 2 →
      (runFinished [(0, .NormalExit), (1, .CrashExit), (0, .NormalExit), (2, .CrashExit)]
        (slotStartCapture exBuilder)).cmd = exBuilder.cmd ++
        specCommands exBuilder.labelTargetPath exBuilder.lineTargetPrefix exBuilder.xmlTagging
          exBuilder.listWidget ∧
      (runFinished [(0, .NormalExit), (1, .CrashExit), (0, .NormalExit), (2, .CrashExit)]
        (slotStartCapture exBuilder)).pushStart = true ∧
      (runFinished [(0, .NormalExit), (1, .CrashExit), (0, .NormalExit), (2, .CrashExit)]
        (slotStartCapture exBuilder)).textBrowser.getLast? =
        some (.darkGreen "!!! done !!!\n")) :=
  finished_command_sequence exBuilder
    [(0, .NormalExit), (1, .CrashExit), (0, .NormalExit), (2, .CrashExit)]

end CRoutinoDatabaseBuilder

/-! ## Properties of the canvas -/

namespace CCanvas

variable {D : Type}

/-- Within the range of `int` the machine result is the mathematical one. -/
theorem wrapInt32_of_range (x : Int) (hlo : -(2 : Int) ^ 31 ≤ x) (hhi : x < (2 : Int) ^ 31) :
    wrapInt32 x = x := by
  unfold wrapInt32
  norm_num at hlo hhi ⊢
  omega

/-- Apart from `INT_MIN`, `abs` on the machine is the absolute value. -/
theorem absInt32_of_range (x : Int) (hlo : -(2 : Int) ^ 31 < x) (hhi : x < (2 : Int) ^ 31) :
    absInt32 x = |x| := by
  unfold absInt32
  apply wrapInt32_of_range
  · have := abs_nonneg x
    norm_num
    omega
  · rw [abs_lt]
    exact ⟨hlo, hhi⟩

/-- C10: the wheel handler adds the vertical angle delta of the event to `zoomAngleDelta`
(the sum being within the range of `int`). When the absolute value of the sum is at least
120, the handler makes exactly one `setZoom` call (the calls it adds are the forwarding to
the mouse adapter, one `setZoom`, its `sigZoom` and `update`), the draw contexts are those
`setZoom` leaves, the focus is moved by the displacement of the point under the cursor, and
the accumulator is reset to 0. When it is less than 120, the sum is kept in the accumulator
and neither the draw contexts (the zoom) nor `posFocus` change and `setZoom` is not
called. -/
theorem wheelEvent_spec (ops : DrawOps D) (flipMouseWheel : Bool) (e : QWheelEvent)
    (c : CCanvas D)
    (hlo : -(2 : Int) ^ 31 < c.zoomAngleDelta + e.angleDelta.y)
    (hhi : c.zoomAngleDelta + e.angleDelta.y < (2 : Int) ^ 31) :
    (120 ≤ |c.zoomAngleDelta + e.angleDelta.y| →
      (wheelEvent ops flipMouseWheel e c).zoomAngleDelta = 0 ∧
      (wheelEvent ops flipMouseWheel e c).calls = c.calls ++
        [.mouseWheelEvent,
          .setZoom (if flipMouseWheel then decide (e.delta < 0) else decide (e.delta > 0)),
          .sigZoom, .update] ∧
      (wheelEvent ops flipMouseWheel e c).contexts =
        (setZoom ops (if flipMouseWheel then decide (e.delta < 0) else decide (e.delta > 0))
          c).contexts ∧
      (wheelEvent ops flipMouseWheel e c).posFocus =
        ops.convertPx2Rad (wheelEvent ops flipMouseWheel e c).contexts.map
          ((ops.convertRad2Px (wheelEvent ops flipMouseWheel e c).contexts.map c.posFocus).sub
            (e.posF.sub (ops.convertRad2Px (wheelEvent ops flipMouseWheel e c).contexts.map
              (ops.convertPx2Rad c.contexts.map e.posF))))) ∧
    (|c.zoomAngleDelta + e.angleDelta.y| < 120 →
      (wheelEvent ops flipMouseWheel e c).zoomAngleDelta
        = c.zoomAngleDelta + e.angleDelta.y ∧
      (wheelEvent ops flipMouseWheel e c).contexts = c.contexts ∧
      (wheelEvent ops flipMouseWheel e c).posFocus = c.posFocus ∧
      (wheelEvent ops flipMouseWheel e c).calls = c.calls ++ [.mouseWheelEvent]) := by
  have hw := wrapInt32_of_range _ (le_of_lt hlo) hhi
  have habs := absInt32_of_range _ hlo hhi
  constructor
  · intro h
    have hn : ¬ (absInt32 (wrapInt32 (c.zoomAngleDelta + e.angleDelta.y)) < 15 * 8) := by
      rw [hw, habs]
      omega
    simp only [wheelEvent, if_neg hn]
    refine ⟨rfl, ?_, rfl, rfl⟩
    simp [setZoom]
  · intro h
    have hn : absInt32 (wrapInt32 (c.zoomAngleDelta + e.angleDelta.y)) < 15 * 8 := by
      rw [hw, habs]
      omega
    have hd : wheelEvent ops flipMouseWheel e c =
        { c with
          calls := c.calls ++ [.mouseWheelEvent]
          zoomAngleDelta := wrapInt32 (c.zoomAngleDelta + e.angleDelta.y) } := by
      simp only [wheelEvent, if_pos hn]
    rw [hd]
    exact ⟨hw, rfl, rfl, rfl⟩

/-- Witness for C10: the second half notch of the wheel, after 60 eighths have been
accumulated. -/
theorem wheelEvent_spec_witness :
    (120 ≤ |(exCanvas 60).zoomAngleDelta + (exWheel 60).angleDelta.y| →
      (wheelEvent exOps false (exWheel 60) (exCanvas 60)).zoomAngleDelta = 0 ∧
      (wheelEvent exOps false (exWheel 60) (exCanvas 60)).calls = (exCanvas 60).calls ++
        [.mouseWheelEvent,
          .setZoom (if false then decide ((exWheel 60).delta < 0)
            else decide ((exWheel 60).delta > 0)),
          .sigZoom, .update] ∧
      (wheelEvent exOps false (exWheel 60) (exCanvas 60)).contexts =
        (setZoom exOps (if false then decide ((exWheel 60).delta < 0)
          else decide ((exWheel 60).delta > 0)) (exCanvas 60)).contexts ∧
      (wheelEvent exOps false (exWheel 60) (exCanvas 60)).posFocus =
        exOps.convertPx2Rad (wheelEvent exOps false (exWheel 60) (exCanvas 60)).contexts.map
          ((exOps.convertRad2Px (wheelEvent exOps false (exWheel 60) (exCanvas 60)).contexts.map
              (exCanvas 60).posFocus).sub
            ((exWheel 60).posF.sub
              (exOps.convertRad2Px
                (wheelEvent exOps false (exWheel 60) (exCanvas 60)).contexts.map
                (exOps.convertPx2Rad (exCanvas 60).contexts.map (exWheel 60).posF))))) ∧
    (|(exCanvas 60).zoomAngleDelta + (exWheel 60).angleDelta.y| < 120 →
      (wheelEvent exOps false (exWheel 60) (exCanvas 60)).zoomAngleDelta
        = (exCanvas 60).zoomAngleDelta + (exWheel 60).angleDelta.y ∧
      (wheelEvent exOps false (exWheel 60) (exCanvas 60)).contexts = (exCanvas 60).contexts ∧
      (wheelEvent exOps false (exWheel 60) (exCanvas 60)).posFocus = (exCanvas 60).posFocus ∧
      (wheelEvent exOps false (exWheel 60) (exCanvas 60)).calls
        = (exCanvas 60).calls ++ [.mouseWheelEvent]) :=
  wheelEvent_spec exOps false (exWheel 60) (exCanvas 60) (by decide) (by decide)

end CCanvas

/-! ## The start button of the Routino database builder -/

namespace CRoutinoDatabaseBuilder

/-- C12: `enabelStartButton` leaves the start button enabled if and only if the list of
source files has at least one item, the text of the target path label is not `"-"` and the
target prefix is not empty; otherwise the button is disabled. The result does not depend on
the state the button had before, and nothing but the button is changed. -/
theorem enabelStartButton_spec (s : CRoutinoDatabaseBuilder) :
    ((enabelStartButton s).pushStart = true ↔
      (s.listWidget ≠ [] ∧ s.labelTargetPath ≠ "-" ∧ s.lineTargetPrefix ≠ "")) ∧
    ((enabelStartButton s).pushStart = false ↔
      ¬ (s.listWidget ≠ [] ∧ s.labelTargetPath ≠ "-" ∧ s.lineTargetPrefix ≠ "")) ∧
    (∀ b : Bool, (enabelStartButton { s with pushStart := b }).pushStart
      = (enabelStartButton s).pushStart) ∧
    { enabelStartButton s with pushStart := s.pushStart } = s := by
  have he : s.lineTargetPrefix.isEmpty = true ↔ s.lineTargetPrefix = "" :=
    String.isEmpty_iff _
  have hl : s.listWidget.length = 0 ↔ s.listWidget = [] := List.length_eq_zero
  have hval : ∀ b : Bool, (enabelStartButton { s with pushStart := b }).pushStart =
      decide (s.listWidget ≠ [] ∧ s.labelTargetPath ≠ "-" ∧ s.lineTargetPrefix ≠ "") := by
    intro b
    simp only [enabelStartButton]
    split_ifs with a1 a2 a3
    · simp [hl.mp a1]
    · simp [a2]
    · simp [he.mp a3]
    · have h1 : s.listWidget ≠ [] := fun h => a1 (hl.mpr h)
      have h3 : s.lineTargetPrefix ≠ "" := fun h => a3 (he.mpr h)
      simp [h1, a2, h3]
  have hself : (enabelStartButton s).pushStart =
      decide (s.listWidget ≠ [] ∧ s.labelTargetPath ≠ "-" ∧ s.lineTargetPrefix ≠ "") :=
    hval s.pushStart
  refine ⟨?_, ?_, ?_, ?_⟩
  · rw [hself, decide_eq_true_iff]
  · rw [hself, decide_eq_false_iff_not]
  · intro b
    rw [hval b, hself]
  · simp only [enabelStartButton]
    split_ifs <;> rfl

end CRoutinoDatabaseBuilder

/-! ## Status messages of the canvas -/

namespace CCanvas

variable {D : Type}

/-- Appending one line per key leaves a text at least as long as the number of keys. -/
theorem length_report_ge (g : String → String) (ks : List String) :
    ∀ init : String, init.length + ks.length ≤
      (ks.foldl (fun r k => r ++ (g k ++ "\n")) init).length := by
  induction ks with
  | nil => intro init; simp
  | cons k ks ih =>
    intro init
    have h := ih (init ++ (g k ++ "\n"))
    have h1 : ("\n" : String).length = 1 := rfl
    simp only [List.foldl_cons, List.length_cons, String.length_append, h1] at h ⊢
    omega

/-- The report text is the concatenation of the lines of the keys. -/
theorem report_eq_join (g : String → String) (ks : List String) :
    ks.foldl (fun r k => r ++ (g k ++ "\n")) "" = String.join (ks.map fun k => g k ++ "\n") := by
  rw [String.join, List.foldl_map]

/-- The report text is empty exactly when there is no key. -/
theorem report_isEmpty_iff (g : String → String) (ks : List String) :
    (ks.foldl (fun r k => r ++ (g k ++ "\n")) "").isEmpty = true ↔ ks = [] := by
  rw [String.isEmpty_iff]
  constructor
  · intro h
    have hl := length_report_ge g ks ""
    rw [h] at hl
    have h0 : ("" : String).length = 0 := rfl
    rw [h0] at hl
    exact List.length_eq_zero.mp (by omega)
  · intro h
    subst h
    rfl

/-- C11: `reportStatus(key, msg)`. Afterwards `statusMessages` has no entry for `key` when
`msg` is empty and maps `key` to `msg` otherwise, every other entry being unchanged. The
keys in ascending order (`ks`, strictly sorted, a permutation of the keys) determine the
report, the concatenation over `ks` of each message followed by a newline. When at least
one entry remains the label is shown with the report as its text; the label is hidden
exactly when the report is empty, which is exactly when no entry remains. -/
theorem reportStatus_spec (key msg : String) (c : CCanvas D) :
    (msg = "" → (reportStatus key msg c).statusMessages.lookup key = none) ∧
    (msg ≠ "" → (reportStatus key msg c).statusMessages.lookup key = some msg) ∧
    (∀ k, k ≠ key →
      (reportStatus key msg c).statusMessages.lookup k = c.statusMessages.lookup k) ∧
    List.Sorted (· < ·) ((reportStatus key msg c).statusMessages.keys.insertionSort (· ≤ ·)) ∧
    List.Perm ((reportStatus key msg c).statusMessages.keys.insertionSort (· ≤ ·))
      (reportStatus key msg c).statusMessages.keys ∧
    ((reportStatus key msg c).statusMessages.keys ≠ [] →
      (reportStatus key msg c).labelStatusMessages.visible = true ∧
      (reportStatus key msg c).labelStatusMessages.text =
        String.join (((reportStatus key msg c).statusMessages.keys.insertionSort (· ≤ ·)).map
          fun k => ((reportStatus key msg c).statusMessages.lookup k).getD "" ++ "\n")) ∧
    ((reportStatus key msg c).labelStatusMessages.visible = false ↔
      String.join (((reportStatus key msg c).statusMessages.keys.insertionSort (· ≤ ·)).map
        fun k => ((reportStatus key msg c).statusMessages.lookup k).getD "" ++ "\n") = "") ∧
    (String.join (((reportStatus key msg c).statusMessages.keys.insertionSort (· ≤ ·)).map
        fun k => ((reportStatus key msg c).statusMessages.lookup k).getD "" ++ "\n") = "" ↔
      (reportStatus key msg c).statusMessages.keys = []) := by
  -- the map after the update
  generalize hm : (if msg.isEmpty then c.statusMessages.erase key
    else c.statusMessages.insert key msg) = m
  have hmap : (reportStatus key msg c).statusMessages = m := by
    simp only [reportStatus, hm]
    split <;> rfl
  have hperm := List.perm_insertionSort (· ≤ ·) m.keys
  have hsorted : List.Sorted (· < ·) (m.keys.insertionSort (· ≤ ·)) :=
    (List.sorted_insertionSort (· ≤ ·) m.keys).lt_of_le (hperm.nodup_iff.mpr m.keys_nodup)
  have hnil : m.keys.insertionSort (· ≤ ·) = [] ↔ m.keys = [] := by
    constructor
    · intro h; rw [h] at hperm; exact hperm.symm.eq_nil
    · intro h; rw [h]; rfl
  have hempty := report_isEmpty_iff (fun k => (m.lookup k).getD "")
    (m.keys.insertionSort (· ≤ ·))
  have hjoin := report_eq_join (fun k => (m.lookup k).getD "") (m.keys.insertionSort (· ≤ ·))
  have hlabel : (reportStatus key msg c).labelStatusMessages =
      if m.keys = [] then { c.labelStatusMessages with visible := false }
      else { visible := true, text := String.join ((m.keys.insertionSort (· ≤ ·)).map
        fun k => (m.lookup k).getD "" ++ "\n") } := by
    simp only [reportStatus, hm]
    by_cases hk : m.keys = []
    · rw [if_pos (hempty.mpr (hnil.mpr hk)), if_pos hk]
    · have hne : ¬ ((m.keys.insertionSort (· ≤ ·)).foldl
          (fun r k => r ++ ((m.lookup k).getD "" ++ "\n")) "").isEmpty = true :=
        fun h => hk (hnil.mp (hempty.mp h))
      rw [if_neg hne, if_neg hk, hjoin]
  rw [hmap, hlabel]
  have hreport : String.join ((m.keys.insertionSort (· ≤ ·)).map
      fun k => (m.lookup k).getD "" ++ "\n") = "" ↔ m.keys = [] := by
    rw [← hjoin, ← String.isEmpty_iff, hempty, hnil]
  refine ⟨?_, ?_, ?_, hsorted, hperm, ?_, ?_, hreport⟩
  · intro h
    subst hm
    rw [if_pos ((String.isEmpty_iff _).mpr h)]
    exact AList.lookup_erase key _
  · intro h
    subst hm
    rw [if_neg (fun h1 => h ((String.isEmpty_iff _).mp h1))]
    exact AList.lookup_insert _
  · intro k hk
    subst hm
    split
    · exact AList.lookup_erase_ne hk
    · exact AList.lookup_insert_ne hk
  · intro hk
    rw [if_neg hk]
    exact ⟨rfl, rfl⟩
  · rw [hreport]
    by_cases hk : m.keys = []
    · rw [if_pos hk]
      exact ⟨fun _ => hk, fun _ => rfl⟩
    · rw [if_neg hk]
      exact ⟨fun h => Bool.noConfusion h, fun h => absurd h hk⟩

end CCanvas

/-! ## The mouse-lost notification of the canvas -/

namespace CCanvas

variable {D : Type}

/-- One delivery of an event without a pinch gesture: `mouseLost` stays set unless the
event is a mouse event, and the mouse adapter is notified exactly when `mouseLost` was set
and the event is a mouse event. -/
theorem event_step (env : CanvasOps D) (r : Bool) (ev : QEvent) (c : CCanvas D)
    (hp : ev.hasPinch = false) :
    (event env r ev c).2.mouseLost = (c.mouseLost && !ev.isMouseEvent) ∧
    (event env r ev c).2.calls.count .afterMouseLostEvent =
      c.calls.count .afterMouseLostEvent +
        (if (c.mouseLost && ev.isMouseEvent) = true then 1 else 0) := by
  cases ev with
  | gesture pinch =>
    cases pinch with
    | none => simp [event, gestureEvent, QEvent.isMouseEvent]
    | some p => simp [QEvent.hasPinch] at hp
  | mouse me =>
    cases hl : c.mouseLost <;> simp [event, QEvent.isMouseEvent, hl, List.count_append]
  | other => simp [event, QEvent.isMouseEvent, List.count_append]

/-- Deliveries of events without pinch gestures: the mouse adapter is notified once if
`mouseLost` was set and a mouse event is among the events, and not at all otherwise. -/
theorem events_count (env : CanvasOps D) (evs : List (Bool × QEvent)) :
    ∀ c : CCanvas D, (∀ ev ∈ evs, ev.2.hasPinch = false) →
      (events env evs c).calls.count .afterMouseLostEvent =
        c.calls.count .afterMouseLostEvent +
          (if (c.mouseLost && evs.any fun ev => ev.2.isMouseEvent) = true then 1 else 0) := by
  induction evs with
  | nil => intro c _; simp [events]
  | cons ev evs ih =>
    intro c h
    obtain ⟨h1, h2⟩ := event_step env ev.1 ev.2 c (h ev (List.mem_cons_self _ _))
    have h3 := ih (event env ev.1 ev.2 c).2 (fun e he => h e (List.mem_cons_of_mem _ he))
    have he : events env (ev :: evs) c = events env evs (event env ev.1 ev.2 c).2 := rfl
    rw [he, h3, h1, h2, List.any_cons]
    generalize (evs.any fun ev => ev.2.isMouseEvent) = b
    generalize ev.2.isMouseEvent = a
    generalize c.mouseLost = l
    cases l <;> cases a <;> cases b <;> rfl

/-- C13: the mouse-lost notification. `mouseTrackingLost()` and a pinch gesture set
`mouseLost`. With `mouseLost` set, a mouse event delivered to `event` notifies the mouse
adapter through `afterMouseLostEvent` exactly once and clears `mouseLost`, while an event
that is neither a mouse nor a gesture event leaves `mouseLost` set and notifies nobody. With
`mouseLost` cleared, a mouse event causes no notification. Over any sequence of events
that does not set the flag (no pinch gesture), `afterMouseLostEvent` is called at most
once: once if `mouseLost` was set and a mouse event is delivered, and never otherwise. -/
theorem event_mouseLost (env : CanvasOps D) (r : Bool) (c : CCanvas D) :
    (mouseTrackingLost c).mouseLost = true ∧
    (∀ p : QPinchGesture, (event env r (.gesture (some p)) c).2.mouseLost = true) ∧
    (∀ me : QMouseEvent, c.mouseLost = true →
      (event env r (.mouse me) c).2.mouseLost = false ∧
      (event env r (.mouse me) c).2.calls = c.calls ++ [.afterMouseLostEvent, .widgetEvent]) ∧
    (c.mouseLost = true →
      (event env r .other c).2.mouseLost = true ∧
      (event env r .other c).2.calls = c.calls ++ [.widgetEvent]) ∧
    (∀ me : QMouseEvent, c.mouseLost = false →
      (event env r (.mouse me) c).2.mouseLost = false ∧
      (event env r (.mouse me) c).2.calls = c.calls ++ [.widgetEvent]) ∧
    (∀ evs : List (Bool × QEvent), (∀ ev ∈ evs, ev.2.hasPinch = false) →
      (events env evs c).calls.count .afterMouseLostEvent =
        c.calls.count .afterMouseLostEvent +
          (if (c.mouseLost && evs.any fun ev => ev.2.isMouseEvent) = true then 1 else 0) ∧
      (events env evs c).calls.count .afterMouseLostEvent ≤
        c.calls.count .afterMouseLostEvent + 1) := by
  refine ⟨rfl, ?_, ?_, ?_, ?_, ?_⟩
  · intro p
    simp [event, gestureEvent]
  · intro me hl
    simp [event, hl]
  · intro hl
    simp [event, hl]
  · intro me hl
    simp [event, hl]
  · intro evs h
    have hc := events_count env evs c h
    refine ⟨hc, ?_⟩
    rw [hc]
    split <;> omega

end CCanvas

/-! ## Moving the map with the keys -/

namespace CCanvas

variable {D : Type}

/-- The quotient `h / 4` of C++ for an `int` `h ≥ 0`, and `-h / 4`, on the machine. -/
theorem quarter_of_nonneg (h : Int) (h0 : 0 ≤ h) (h1 : h < (2 : Int) ^ 31) :
    wrapInt32 (h.tdiv 4) = h.tdiv 4 ∧
    wrapInt32 ((wrapInt32 (-h)).tdiv 4) = (-h).tdiv 4 ∧
    (-h).tdiv 4 = -(h.tdiv 4) := by
  have hq : h.tdiv 4 = h / 4 := Int.tdiv_eq_ediv h0 (by decide)
  have hn : wrapInt32 (-h) = -h := by
    apply wrapInt32_of_range
    · norm_num at h1 ⊢
      omega
    · norm_num at h1 ⊢
      omega
  have hneg : (-h).tdiv 4 = -(h.tdiv 4) := Int.neg_tdiv h 4
  refine ⟨?_, ?_, hneg⟩
  · apply wrapInt32_of_range
    · rw [hq]
      norm_num at h1 ⊢
      omega
    · rw [hq]
      norm_num at h1 ⊢
      omega
  · rw [hn, hneg]
    apply wrapInt32_of_range
    · rw [hq]
      norm_num at h1 ⊢
      omega
    · rw [hq]
      norm_num at h1 ⊢
      omega

/-- C14: for a widget of width `w ≥ 0` and height `h ≥ 0` (values of `int`), the key Up
calls `moveMap` with the pixel offset `(0, h/4)`, Down with `(0, (-h)/4)`, Left with
`(w/4, 0)` and Right with `((-w)/4, 0)`, the division truncating; hence the Down offset is
the negation of the Up offset and the Right offset the negation of the Left offset. After
`moveMap` the key is forwarded to the mouse adapter, the event accepted and `update()`
called. `moveMap(delta)` converts the focus to pixels, subtracts `delta`, converts back,
emits `sigMove` and calls `slotTriggerCompleteUpdate(eRedrawAll)`. -/
theorem keyPressEvent_moveMap (env : CanvasOps D) (c : CCanvas D)
    (hw0 : 0 ≤ c.width) (hw1 : c.width < (2 : Int) ^ 31)
    (hh0 : 0 ≤ c.height) (hh1 : c.height < (2 : Int) ^ 31) :
    keyPressEvent env .Key_Up c =
      { moveMap env ⟨0, ((c.height.tdiv 4 : Int) : ℚ)⟩ c with
        calls := (moveMap env ⟨0, ((c.height.tdiv 4 : Int) : ℚ)⟩ c).calls ++
          [.mouseKeyPressEvent, .accept, .update] } ∧
    keyPressEvent env .Key_Down c =
      { moveMap env ⟨0, (((-c.height).tdiv 4 : Int) : ℚ)⟩ c with
        calls := (moveMap env ⟨0, (((-c.height).tdiv 4 : Int) : ℚ)⟩ c).calls ++
          [.mouseKeyPressEvent, .accept, .update] } ∧
    keyPressEvent env .Key_Left c =
      { moveMap env ⟨((c.width.tdiv 4 : Int) : ℚ), 0⟩ c with
        calls := (moveMap env ⟨((c.width.tdiv 4 : Int) : ℚ), 0⟩ c).calls ++
          [.mouseKeyPressEvent, .accept, .update] } ∧
    keyPressEvent env .Key_Right c =
      { moveMap env ⟨(((-c.width).tdiv 4 : Int) : ℚ), 0⟩ c with
        calls := (moveMap env ⟨(((-c.width).tdiv 4 : Int) : ℚ), 0⟩ c).calls ++
          [.mouseKeyPressEvent, .accept, .update] } ∧
    (-c.height).tdiv 4 = -(c.height.tdiv 4) ∧
    (-c.width).tdiv 4 = -(c.width.tdiv 4) ∧
    (∀ delta : QPointF,
      (moveMap env delta c).posFocus =
        env.convertPx2Rad c.contexts.map
          ((env.convertRad2Px c.contexts.map c.posFocus).sub delta) ∧
      (moveMap env delta c).needsRedraw = env.redrawOr c.needsRedraw .eRedrawAll ∧
      (moveMap env delta c).calls =
        c.calls ++ [.sigMove, .slotTriggerCompleteUpdate .eRedrawAll, .update] ∧
      (moveMap env delta c).contexts = c.contexts) := by
  obtain ⟨a1, a2, a3⟩ := quarter_of_nonneg c.height hh0 hh1
  obtain ⟨b1, b2, b3⟩ := quarter_of_nonneg c.width hw0 hw1
  refine ⟨?_, ?_, ?_, ?_, a3, b3, ?_⟩
  · simp only [keyPressEvent, a1, if_true]
  · simp only [keyPressEvent, a2, if_true]
  · simp only [keyPressEvent, b1, if_true]
  · simp only [keyPressEvent, b2, if_true]
  · intro delta
    refine ⟨rfl, rfl, ?_, rfl⟩
    simp [moveMap, slotTriggerCompleteUpdate]

end CCanvas

/-! ## Zoom propagation in the canvas -/

namespace CCanvas

variable {D : Type}

/-- The loop over `allDrawContext.mid(1)` of a canvas as constructed: the map is left as it
is, and each of the other three contexts is given the zoom the map reports. -/
theorem zoomOthers_contexts (ops : DrawOps D) (c : CCanvas D)
    (hall : c.allDrawContext = allDrawContextInit) :
    (zoomOthers ops c).contexts =
      { map := c.contexts.map
        dem := ops.setZoomIdx (ops.zoomIdx c.contexts.map) c.contexts.dem
        gis := ops.setZoomIdx (ops.zoomIdx c.contexts.map) c.contexts.gis
        rt := ops.setZoomIdx (ops.zoomIdx c.contexts.map) c.contexts.rt } := by
  simp [zoomOthers, hall, allDrawContextInit, DrawContexts.set, DrawContexts.get]

/-- The contexts `setZoom` leaves are those of the loop run after the zoom of the map. -/
theorem setZoom_contexts (ops : DrawOps D) (zoomIn : Bool) (c : CCanvas D) :
    (setZoom ops zoomIn c).contexts =
      (zoomOthers ops
        { c with
          contexts := c.contexts.set .map (ops.zoomInOut zoomIn c.needsRedraw c.contexts.map).1
        }).contexts := rfl

/-- When a context reports the zoom it has been given, the loop leaves all contexts with
the zoom of the map. -/
theorem zoomOthers_shared (ops : DrawOps D) (c : CCanvas D)
    (hall : c.allDrawContext = allDrawContextInit)
    (hget : ∀ (i : Int) (d : D), ops.zoomIdx (ops.setZoomIdx i d) = i) (k : DrawId) :
    ops.zoomIdx ((zoomOthers ops c).contexts.get k) =
      ops.zoomIdx (zoomOthers ops c).contexts.map := by
  rw [zoomOthers_contexts ops c hall]
  cases k <;> simp [DrawContexts.get, hget]

end CCanvas

namespace CCanvas

variable {D : Type}

/-- C17: zoom propagation. The map is the first entry of `allDrawContext`, which the
constructor builds as `[map, dem, gis, rt]`. For a canvas with this list, after each of
`setZoom(in, ...)`, `zoomTo(rect)` and `loadConfig(cfg)` the map is in the state its own
zoom change (`zoom(in, needsRedraw)`, `zoom(rect)`, resp. `loadConfig(cfg)`) left it in, so
it is not zoomed a second time, and each of `dem`, `gis` and `rt` has been given, through
`zoom(int)`, the zoom value `map->zoom()` reports in that state. If a context reports the
zoom value it has been given, all four contexts report the same zoom afterwards. -/
theorem zoom_propagation (env : CanvasOps D) (c : CCanvas D)
    (hall : c.allDrawContext = allDrawContextInit) :
    allDrawContextInit = [.map, .dem, .gis, .rt] ∧
    allDrawContextInit.head? = some .map ∧
    allDrawContextInit.drop 1 = [.dem, .gis, .rt] ∧
    (∀ zoomIn : Bool,
      (setZoom env.toDrawOps zoomIn c).contexts =
        { map := (env.zoomInOut zoomIn c.needsRedraw c.contexts.map).1
          dem := env.setZoomIdx
            (env.zoomIdx (env.zoomInOut zoomIn c.needsRedraw c.contexts.map).1) c.contexts.dem
          gis := env.setZoomIdx
            (env.zoomIdx (env.zoomInOut zoomIn c.needsRedraw c.contexts.map).1) c.contexts.gis
          rt := env.setZoomIdx
            (env.zoomIdx (env.zoomInOut zoomIn c.needsRedraw c.contexts.map).1) c.contexts.rt }) ∧
    (∀ rect : QRectF,
      (zoomTo env rect c).contexts =
        { map := env.zoomRect rect c.contexts.map
          dem := env.setZoomIdx (env.zoomIdx (env.zoomRect rect c.contexts.map)) c.contexts.dem
          gis := env.setZoomIdx (env.zoomIdx (env.zoomRect rect c.contexts.map)) c.contexts.gis
          rt := env.setZoomIdx (env.zoomIdx (env.zoomRect rect c.contexts.map)) c.contexts.rt }) ∧
    (∀ cfg : QSettings,
      (loadConfig env cfg c).contexts.map =
        env.mapLoadConfig cfg
          (setScales env
            (cfg.scales.getD (env.getScalesType
              (setProjection env
                (cfg.proj.getD (env.getProjection c.contexts.map)) c).contexts.map))
            (setProjection env
              (cfg.proj.getD (env.getProjection c.contexts.map)) c)).contexts.map ∧
      (loadConfig env cfg c).contexts.dem =
        env.setZoomIdx (env.zoomIdx (loadConfig env cfg c).contexts.map)
          (env.demLoadConfig cfg
            (setScales env
              (cfg.scales.getD (env.getScalesType
                (setProjection env
                  (cfg.proj.getD (env.getProjection c.contexts.map)) c).contexts.map))
              (setProjection env
                (cfg.proj.getD (env.getProjection c.contexts.map)) c)).contexts.dem) ∧
      (loadConfig env cfg c).contexts.gis =
        env.setZoomIdx (env.zoomIdx (loadConfig env cfg c).contexts.map)
          (setScales env
            (cfg.scales.getD (env.getScalesType
              (setProjection env
                (cfg.proj.getD (env.getProjection c.contexts.map)) c).contexts.map))
            (setProjection env
              (cfg.proj.getD (env.getProjection c.contexts.map)) c)).contexts.gis ∧
      (loadConfig env cfg c).contexts.rt =
        env.setZoomIdx (env.zoomIdx (loadConfig env cfg c).contexts.map)
          (setScales env
            (cfg.scales.getD (env.getScalesType
              (setProjection env
                (cfg.proj.getD (env.getProjection c.contexts.map)) c).contexts.map))
            (setProjection env
              (cfg.proj.getD (env.getProjection c.contexts.map)) c)).contexts.rt) ∧
    ((∀ (i : Int) (d : D), env.zoomIdx (env.setZoomIdx i d) = i) →
      ∀ k : DrawId,
        (∀ zoomIn : Bool,
          env.zoomIdx ((setZoom env.toDrawOps zoomIn c).contexts.get k) =
            env.zoomIdx (setZoom env.toDrawOps zoomIn c).contexts.map) ∧
        (∀ rect : QRectF,
          env.zoomIdx ((zoomTo env rect c).contexts.get k) =
            env.zoomIdx (zoomTo env rect c).contexts.map) ∧
        (∀ cfg : QSettings,
          env.zoomIdx ((loadConfig env cfg c).contexts.get k) =
            env.zoomIdx (loadConfig env cfg c).contexts.map)) := by
  have hsz : ∀ zoomIn : Bool, (setZoom env.toDrawOps zoomIn c).contexts = _ :=
    fun zoomIn => (setZoom_contexts env.toDrawOps zoomIn c).trans
      (zoomOthers_contexts env.toDrawOps _ hall)
  have hzt : ∀ rect : QRectF, (zoomTo env rect c).contexts = _ :=
    fun rect => zoomOthers_contexts env.toDrawOps
      { c with
        posFocus := rect.center
        contexts := c.contexts.set .map (env.zoomRect rect c.contexts.map) } hall
  have hlc : ∀ cfg : QSettings, (loadConfig env cfg c).contexts = _ :=
    fun cfg => zoomOthers_contexts env.toDrawOps _
      (show (_ : CCanvas D).allDrawContext = allDrawContextInit from hall)
  refine ⟨rfl, rfl, rfl, ?_, ?_, ?_, ?_⟩
  · intro zoomIn
    rw [hsz zoomIn]
    rfl
  · intro rect
    rw [hzt rect]
    rfl
  · intro cfg
    rw [hlc cfg]
    exact ⟨rfl, rfl, rfl, rfl⟩
  · intro hget k
    refine ⟨fun zoomIn => ?_, fun rect => ?_, fun cfg => ?_⟩
    · rw [hsz zoomIn]
      cases k <;> simp [DrawContexts.get, DrawContexts.set, hget]
    · rw [hzt rect]
      cases k <;> simp [DrawContexts.get, DrawContexts.set, hget]
    · rw [hlc cfg]
      cases k <;> simp [DrawContexts.get, DrawContexts.set, hget]

end CCanvas

/-! ## Undo round trip and invariant of the add-point operation -/

namespace CLineOpAddPoint

variable {H : Type}

/-- A mouse move in add mode with the focus on a valid index returns a state and changes
neither the number of points nor the flags, the focus or the history. -/
theorem mouseMove_add_frame (env : LineEnv H) (e : QMouseEvent) (s : CLineOpAddPoint H)
    (ha : s.addPoint = true) (hidx : validIdx s.points s.idxFocus) :
    ∃ s1, mouseMoveEventEx env e s = some s1 ∧
      s1.points.length = s.points.length ∧ s1.addPoint = s.addPoint ∧
      s1.isPoint = s.isPoint ∧ s1.idxFocus = s.idxFocus ∧ s1.history = s.history := by
  have h := hidx
  obtain ⟨h0, h1⟩ := h
  by_cases hpos : s.idxFocus > 0
  · have hidx1 : validIdx (s.points.modify (fun pt : point_t =>
        { pt with coord := env.convertPx2Rad e.pos.toPointF, subpts := [] })
        s.idxFocus.toNat) (s.idxFocus - 1) := by
      unfold validIdx
      rw [List.length_modify]
      omega
    refine ⟨slotTriggerCompleteUpdate .eRedrawMouse
      { s with
        points := (s.points.modify (fun pt : point_t =>
          { pt with coord := env.convertPx2Rad e.pos.toPointF, subpts := [] })
          s.idxFocus.toNat).modify point_t.clearSubpts (s.idxFocus - 1).toNat
        timerRouting := s.timerRouting.start }, ?_, ?_, rfl, rfl, rfl, rfl⟩
    · simp only [mouseMoveEventEx, ha, if_true, qvModify_eq_some _ hidx, Option.some_bind,
        if_pos hpos, qvModify_eq_some _ hidx1, Option.map_some']
    · simp [slotTriggerCompleteUpdate]
  · refine ⟨slotTriggerCompleteUpdate .eRedrawMouse
      { s with
        points := s.points.modify (fun pt : point_t =>
          { pt with coord := env.convertPx2Rad e.pos.toPointF, subpts := [] })
          s.idxFocus.toNat
        timerRouting := s.timerRouting.start }, ?_, ?_, rfl, rfl, rfl, rfl⟩
    · simp only [mouseMoveEventEx, ha, if_true, qvModify_eq_some _ hidx, Option.some_bind,
        if_neg hpos, Option.map_some']
    · simp [slotTriggerCompleteUpdate]

/-- Any number of mouse moves in add mode with the focus on a valid index return a state
and change neither the number of points nor the flags, the focus or the history. -/
theorem mouseMoves_add_frame (env : LineEnv H) (es : List QMouseEvent) :
    ∀ s : CLineOpAddPoint H, s.addPoint = true → validIdx s.points s.idxFocus →
      ∃ s1, mouseMoves env es s = some s1 ∧
        s1.points.length = s.points.length ∧ s1.addPoint = s.addPoint ∧
        s1.isPoint = s.isPoint ∧ s1.idxFocus = s.idxFocus ∧ s1.history = s.history := by
  induction es with
  | nil => intro s _ _; exact ⟨s, rfl, rfl, rfl, rfl, rfl, rfl⟩
  | cons e es ih =>
    intro s ha hidx
    obtain ⟨s1, hm, hl, ha1, hp1, hi1, hh1⟩ := mouseMove_add_frame env e s ha hidx
    have hidx1 : validIdx s1.points s1.idxFocus := by
      unfold validIdx at hidx ⊢
      rw [hl, hi1]
      exact hidx
    obtain ⟨s2, hm2, hl2, ha2, hp2, hi2, hh2⟩ := ih s1 (ha1.trans ha) hidx1
    refine ⟨s2, ?_, hl2.trans hl, ha2.trans ha1, hp2.trans hp1, hi2.trans hi1, hh2.trans hh1⟩
    simp only [mouseMoves, List.foldlM_cons, hm, Option.bind_eq_bind, Option.some_bind]
    exact hm2

/-- C15: undo round trip in append/prepend mode (`addPoint` and `isPoint` true, `idxFocus`
a valid index, the routing update keeping the number of points), for a history in which
`restoreFromHistory` yields the line most recently passed to `storeToHistory`. A left
press, any number of mouse moves and a right press all return a state; the left press
stores the line after the routing update; after the right press the line is that stored
line, which is the line after the left press without the freshly inserted point, and
`addPoint = false`, `idxFocus = NOIDX`. -/
theorem undo_round_trip (env : LineEnv H) (eL eR : QMouseEvent) (moves : List QMouseEvent)
    (s : CLineOpAddPoint H)
    (hL : eL.button = MouseButton.LeftButton) (hR : eR.button = MouseButton.RightButton)
    (ha : s.addPoint = true) (hp : s.isPoint = true) (hidx : validIdx s.points s.idxFocus)
    (hlen : (env.slotTimeoutRouting s.points s.idxFocus s.timerRouting).1.length
      = s.points.length)
    (hhist : ∀ (h : H) (l cur : SGisLine),
      (env.restoreFromHistory (env.storeToHistory h l) cur).2 = l) :
    ∃ s1 s2 s3, mousePressEventEx env eL s = some s1 ∧
      mouseMoves env moves s1 = some s2 ∧
      mousePressEventEx env eR s2 = some s3 ∧
      s1.history = env.storeToHistory s.history
        (env.slotTimeoutRouting s.points s.idxFocus s.timerRouting).1 ∧
      s3.points = (env.slotTimeoutRouting s.points s.idxFocus s.timerRouting).1 ∧
      s3.points = s1.points.eraseIdx s1.idxFocus.toNat ∧
      s3.addPoint = false ∧ s3.idxFocus = env.NOIDX := by
  have hidxr : validIdx (env.slotTimeoutRouting s.points s.idxFocus s.timerRouting).1
      s.idxFocus := by
    unfold validIdx at hidx ⊢
    rw [hlen]; exact hidx
  obtain ⟨h0, h1⟩ := hidx
  have hpl := pressLeft_append_mode env eL s ha hp hidxr
  generalize hr : env.slotTimeoutRouting s.points s.idxFocus s.timerRouting = r
    at hpl hlen ⊢
  generalize hi : (if s.idxFocus = (r.1.length : Int) - 1 then s.idxFocus + 1 else s.idxFocus)
    = idx at hpl
  have hidx0 : 0 ≤ idx := by subst hi; split <;> omega
  have hidxn : idx.toNat ≤ r.1.length := by subst hi; split <;> omega
  have hs1 := mousePressEventEx_left env eL s hL
  rw [hpl, Option.map_some'] at hs1
  generalize hs1def : pressFinish
    { s with
      points := r.1.take idx.toNat ++
        point_t.ofCoord (env.convertPx2Rad eL.pos.toPointF) :: r.1.drop idx.toNat
      timerRouting := r.2
      idxFocus := idx
      history := env.storeToHistory s.history r.1 } = s1 at hs1
  have e1 : s1.points = r.1.take idx.toNat ++
      point_t.ofCoord (env.convertPx2Rad eL.pos.toPointF) :: r.1.drop idx.toNat := by
    subst hs1def; rfl
  have e2 : s1.idxFocus = idx := by subst hs1def; rfl
  have e3 : s1.history = env.storeToHistory s.history r.1 := by subst hs1def; rfl
  have e4 : s1.addPoint = true := by subst hs1def; exact ha
  have hv1 : validIdx s1.points s1.idxFocus := by
    unfold validIdx
    rw [e1, e2]
    simp only [List.length_append, List.length_cons, List.length_take, List.length_drop]
    omega
  obtain ⟨s2, hm, -, ha2, -, -, hh2⟩ := mouseMoves_add_frame env moves s1 e4 hv1
  have hs3 := mousePressEventEx_right env eR s2 hR
  refine ⟨s1, s2, _, hs1, hm, hs3, e3, ?_, ?_, ?_, ?_⟩
  · simp only [pressFinish, pressRight, setCanvasPanning, slotTriggerCompleteUpdate,
      ha2.trans e4, if_true, hh2, e3]
    exact hhist _ _ _
  · simp only [pressFinish, pressRight, setCanvasPanning, slotTriggerCompleteUpdate,
      ha2.trans e4, if_true, hh2, e3]
    rw [hhist, e1, e2]
    exact (insertAt_eraseIdx r.1 idx.toNat _ hidxn).symm
  · simp [pressFinish, pressRight, setCanvasPanning, slotTriggerCompleteUpdate,
      ha2.trans e4]
  · simp [pressFinish, pressRight, setCanvasPanning, slotTriggerCompleteUpdate]

end CLineOpAddPoint

namespace CLineOpAddPoint

variable {H : Type}

/-- The focus is a valid index after an insertion at an index in range. -/
theorem validIdx_insertAt {α : Type} (v : List α) (idx : Int) (x : α) (h0 : 0 ≤ idx)
    (h1 : idx ≤ (v.length : Int)) :
    validIdx (v.take idx.toNat ++ x :: v.drop idx.toNat) idx := by
  unfold validIdx
  simp only [List.length_append, List.length_cons, List.length_take, List.length_drop]
  omega

/-- The result of a left press keeps the focus on a valid index while in add mode, given
that the focus was valid before (in add mode by the invariant, outside it by the
condition under which the press is handled). -/
theorem pressLeft_inv (env : LineEnv H) (e : QMouseEvent) (s : CLineOpAddPoint H)
    (hroute : ∀ (pts : SGisLine) (i : Int) (t : QTimer),
      (env.slotTimeoutRouting pts i t).1.length = pts.length)
    (hidx : validIdx s.points s.idxFocus) :
    ∃ s1, pressLeft env e s = some s1 ∧
      (s1.addPoint = true → validIdx s1.points s1.idxFocus) := by
  have h := hidx
  obtain ⟨h0, h1⟩ := h
  cases ha : s.addPoint with
  | true =>
    cases hp : s.isPoint with
    | true =>
      have hlen := hroute s.points s.idxFocus s.timerRouting
      have hidxr : validIdx (env.slotTimeoutRouting s.points s.idxFocus s.timerRouting).1
          s.idxFocus := by
        unfold validIdx
        rw [hlen]; exact ⟨h0, h1⟩
      refine ⟨_, pressLeft_append_mode env e s ha hp hidxr, fun _ => ?_⟩
      exact validIdx_insertAt _ _ _ (by split <;> omega) (by split <;> omega)
    | false =>
      refine ⟨{ s with
        points := (env.slotTimeoutRouting s.points s.idxFocus s.timerRouting).1
        timerRouting := (env.slotTimeoutRouting s.points s.idxFocus s.timerRouting).2
        history := env.storeToHistory s.history
          (env.slotTimeoutRouting s.points s.idxFocus s.timerRouting).1
        addPoint := false
        idxFocus := env.NOIDX }, ?_, fun hf => Bool.noConfusion hf⟩
      simp only [pressLeft, ha, hp, Bool.false_eq_true, if_true, if_false]
  | false =>
    cases hp : s.isPoint with
    | true =>
      refine ⟨_, pressLeft_point env e s ha hp (Or.inl h0) (le_of_lt h1), fun _ => ?_⟩
      exact validIdx_insertAt _ _ _ (by split <;> omega) (by split <;> omega)
    | false =>
      refine ⟨_, pressLeft_segment env e s ha hp hidx, fun _ => ?_⟩
      exact validIdx_insertAt _ _ _ (by omega) (by rw [List.length_modify]; omega)

/-- C16: invariant of the add-point operation, for a routing update that keeps the number
of points: whenever `addPoint` is true, `idxFocus` is a valid index of `points`. It holds
after `append()` on a non-empty line, and from a state in which it holds every
`mousePressEventEx` (a left press outside add mode being handled only with `idxFocus` a
valid index), `mouseMoveEventEx` and `canvasPanned` returns a state in which it holds
again; in such a state in add mode the accesses `points[idxFocus]` of `mouseMoveEventEx`,
`canvasPanned` and `drawFg` are in bounds (the methods return). -/
theorem addPoint_invariant (env : LineEnv H) (s : CLineOpAddPoint H)
    (hroute : ∀ (pts : SGisLine) (i : Int) (t : QTimer),
      (env.slotTimeoutRouting pts i t).1.length = pts.length) :
    (s.points ≠ [] → ∃ s1, append s = some s1 ∧ s1.addPoint = true ∧
      validIdx s1.points s1.idxFocus) ∧
    ((s.addPoint = true → validIdx s.points s.idxFocus) →
      (∀ e : QMouseEvent,
        (s.addPoint = false → e.button = MouseButton.LeftButton →
          validIdx s.points s.idxFocus) →
        ∃ s1, mousePressEventEx env e s = some s1 ∧
          (s1.addPoint = true → validIdx s1.points s1.idxFocus)) ∧
      (∀ e : QMouseEvent, ∃ s1, mouseMoveEventEx env e s = some s1 ∧
        (s1.addPoint = true → validIdx s1.points s1.idxFocus)) ∧
      (∀ pos : QPointF, ∃ s1, canvasPanned env pos s = some s1 ∧
        (s1.addPoint = true → validIdx s1.points s1.idxFocus)) ∧
      (s.addPoint = true → (drawFg env s).isSome = true)) := by
  constructor
  · intro hne
    obtain ⟨last, hlast⟩ : ∃ last, s.points.getLast? = some last := by
      cases hp : s.points.getLast? with
      | none => exact absurd (List.getLast?_eq_none_iff.mp hp) hne
      | some l => exact ⟨l, rfl⟩
    have hins : qvInsert s.points (s.points.length : Int) last = some (s.points ++ [last]) := by
      rw [qvInsert_eq_some last (by omega) (le_refl _)]
      simp
    refine ⟨{ s with
      idxFocus := (s.points.length : Int)
      points := s.points ++ [last]
      addPoint := true
      isPoint := true
      canvasPanning := true }, ?_, rfl, ?_⟩
    · simp only [append, qvLast, hlast, hins, Option.bind_eq_bind, Option.some_bind,
        Option.pure_def, setCanvasPanning]
    · unfold validIdx
      simp only [List.length_append, List.length_singleton]
      omega
  · intro hinv
    refine ⟨?_, ?_, ?_, ?_⟩
    · intro e hout
      cases hb : e.button with
      | LeftButton =>
        have hidx : validIdx s.points s.idxFocus := by
          cases ha : s.addPoint with
          | true => exact hinv ha
          | false => exact hout ha hb
        obtain ⟨s1, hs1, hi1⟩ := pressLeft_inv env e s hroute hidx
        rw [mousePressEventEx_left env e s hb, hs1, Option.map_some']
        exact ⟨_, rfl, hi1⟩
      | RightButton =>
        rw [mousePressEventEx_right env e s hb]
        refine ⟨_, rfl, fun hf => ?_⟩
        cases ha : s.addPoint <;>
          simp [pressFinish, pressRight, setCanvasPanning, slotTriggerCompleteUpdate, ha] at hf
      | OtherButton =>
        refine ⟨pressFinish s, ?_, hinv⟩
        simp only [mousePressEventEx, hb, Option.map_some']
    · intro e
      cases ha : s.addPoint with
      | true =>
        obtain ⟨s1, hm, hl, ha1, -, hi1, -⟩ := mouseMove_add_frame env e s ha (hinv ha)
        refine ⟨s1, hm, fun _ => ?_⟩
        have hv := hinv ha
        unfold validIdx at hv ⊢
        rw [hl, hi1]
        exact hv
      | false =>
        by_cases hc : env.isCloseToLine s.points e.pos = env.NOIDX
        · refine ⟨slotTriggerCompleteUpdate .eRedrawMouse
            { s with idxFocus := env.isCloseTo s.points e.pos, isPoint := true }, ?_, ?_⟩
          · simp only [mouseMoveEventEx, ha, Bool.false_eq_true, if_false, if_pos hc,
              Option.map_some']
          · intro hf
            simp [slotTriggerCompleteUpdate, ha] at hf
        · refine ⟨slotTriggerCompleteUpdate .eRedrawMouse
            { s with idxFocus := env.isCloseToLine s.points e.pos, isPoint := false }, ?_, ?_⟩
          · simp only [mouseMoveEventEx, ha, Bool.false_eq_true, if_false, if_neg hc,
              Option.map_some']
          · intro hf
            simp [slotTriggerCompleteUpdate, ha] at hf
    · intro pos
      cases ha : s.addPoint with
      | true =>
        have hv := hinv ha
        refine ⟨slotTriggerCompleteUpdate .eRedrawMouse
          { s with
            points := s.points.modify
              (fun pt : point_t => { pt with coord := env.convertPx2Rad pos })
              s.idxFocus.toNat }, ?_, fun _ => ?_⟩
        · simp only [canvasPanned, ha, if_true, qvModify_eq_some _ hv, Option.map_some']
        · unfold validIdx at hv ⊢
          simp only [slotTriggerCompleteUpdate, List.length_modify]
          exact hv
      | false =>
        refine ⟨slotTriggerCompleteUpdate .eRedrawMouse s, ?_, fun hf => ?_⟩
        · simp only [canvasPanned, ha, Bool.false_eq_true, if_false, Option.map_some']
        · simp [slotTriggerCompleteUpdate, ha] at hf
    · intro ha
      have hv := hinv ha
      obtain ⟨h0, h1⟩ := hv
      have hget : ∃ pt, qvAt s.points s.idxFocus = some pt := by
        have hlt : s.idxFocus.toNat < s.points.length := by omega
        refine ⟨s.points[s.idxFocus.toNat], ?_⟩
        simp only [qvAt, if_pos h0]
        exact List.getElem?_eq_getElem hlt
      obtain ⟨pt, hpt⟩ := hget
      unfold drawFg
      split
      · rfl
      · simp [ha, hpt]

end CLineOpAddPoint

/-! ## Instances of the theorems on concrete inputs -/

namespace CCanvas

/-- Witness for C14: the keys Up and Down on a widget of height 601, where `601 / 4` is
150 and `-601 / 4` is -150. -/
theorem keyPressEvent_moveMap_witness :
    (0 ≤ exSizedCanvas.width ∧ exSizedCanvas.width < (2 : Int) ^ 31 ∧
      0 ≤ exSizedCanvas.height ∧ exSizedCanvas.height < (2 : Int) ^ 31) ∧
    keyPressEvent exCanvasOps .Key_Up exSizedCanvas =
      { moveMap exCanvasOps ⟨0, ((exSizedCanvas.height.tdiv 4 : Int) : ℚ)⟩ exSizedCanvas with
        calls := (moveMap exCanvasOps ⟨0, ((exSizedCanvas.height.tdiv 4 : Int) : ℚ)⟩
          exSizedCanvas).calls ++ [.mouseKeyPressEvent, .accept, .update] } ∧
    keyPressEvent exCanvasOps .Key_Down exSizedCanvas =
      { moveMap exCanvasOps ⟨0, (((-exSizedCanvas.height).tdiv 4 : Int) : ℚ)⟩ exSizedCanvas with
        calls := (moveMap exCanvasOps ⟨0, (((-exSizedCanvas.height).tdiv 4 : Int) : ℚ)⟩
          exSizedCanvas).calls ++ [.mouseKeyPressEvent, .accept, .update] } ∧
    (-exSizedCanvas.height).tdiv 4 = -(exSizedCanvas.height.tdiv 4) :=
  ⟨⟨by decide, by decide, by decide, by decide⟩,
    (keyPressEvent_moveMap exCanvasOps exSizedCanvas (by decide) (by decide) (by decide)
      (by decide)).1,
    (keyPressEvent_moveMap exCanvasOps exSizedCanvas (by decide) (by decide) (by decide)
      (by decide)).2.1,
    (keyPressEvent_moveMap exCanvasOps exSizedCanvas (by decide) (by decide) (by decide)
      (by decide)).2.2.2.2.1⟩

/-- Witness for C17: zooming in on the canvas `exCanvas 0`, whose list of contexts is the one
the constructor builds. -/
theorem zoom_propagation_witness :
    (exCanvas 0).allDrawContext = allDrawContextInit ∧
    (setZoom exCanvasOps.toDrawOps true (exCanvas 0)).contexts =
      { map := (exCanvasOps.zoomInOut true (exCanvas 0).needsRedraw (exCanvas 0).contexts.map).1
        dem := exCanvasOps.setZoomIdx
          (exCanvasOps.zoomIdx
            (exCanvasOps.zoomInOut true (exCanvas 0).needsRedraw (exCanvas 0).contexts.map).1)
          (exCanvas 0).contexts.dem
        gis := exCanvasOps.setZoomIdx
          (exCanvasOps.zoomIdx
            (exCanvasOps.zoomInOut true (exCanvas 0).needsRedraw (exCanvas 0).contexts.map).1)
          (exCanvas 0).contexts.gis
        rt := exCanvasOps.setZoomIdx
          (exCanvasOps.zoomIdx
            (exCanvasOps.zoomInOut true (exCanvas 0).needsRedraw (exCanvas 0).contexts.map).1)
          (exCanvas 0).contexts.rt } :=
  ⟨rfl, (zoom_propagation exCanvasOps (exCanvas 0) rfl).2.2.2.1 true⟩

end CCanvas

namespace CLineOpAddPoint

/-- Witness for C15: a point is appended to `exLine`, moved twice and cancelled. -/
theorem undo_round_trip_witness :
    ∃ s1 s2 s3, mousePressEventEx exEnv exLeft (exState 2 true true) = some s1 ∧
      mouseMoves exEnv exMoves s1 = some s2 ∧
      mousePressEventEx exEnv exRight s2 = some s3 ∧
      s1.history = exEnv.storeToHistory (exState 2 true true).history
        (exEnv.slotTimeoutRouting (exState 2 true true).points (exState 2 true true).idxFocus
          (exState 2 true true).timerRouting).1 ∧
      s3.points = (exEnv.slotTimeoutRouting (exState 2 true true).points
        (exState 2 true true).idxFocus (exState 2 true true).timerRouting).1 ∧
      s3.points = s1.points.eraseIdx s1.idxFocus.toNat ∧
      s3.addPoint = false ∧ s3.idxFocus = exEnv.NOIDX :=
  undo_round_trip exEnv exLeft exRight exMoves (exState 2 true true) rfl rfl rfl rfl
    (by decide) rfl (fun _ _ _ => rfl)

/-- Witness for C16: `append` on `exLine` establishes the invariant, and a mouse move in
add mode with the last point of `exLine` floating returns a state. -/
theorem addPoint_invariant_witness :
    (∀ (pts : SGisLine) (i : Int) (t : QTimer),
      (exEnv.slotTimeoutRouting pts i t).1.length = pts.length) ∧
    (∃ s1, append (exState (-1) false false) = some s1 ∧ s1.addPoint = true ∧
      validIdx s1.points s1.idxFocus) ∧
    (∃ s1, mouseMoveEventEx exEnv exLeft (exState 2 true true) = some s1 ∧
      (s1.addPoint = true → validIdx s1.points s1.idxFocus)) :=
  ⟨fun _ _ _ => rfl,
    (addPoint_invariant exEnv (exState (-1) false false) (fun _ _ _ => rfl)).1
      (by simp [exState, exLine]),
    ((addPoint_invariant exEnv (exState 2 true true) (fun _ _ _ => rfl)).2
      (fun _ => by decide)).2.1 exLeft⟩

end CLineOpAddPoint

/-! ## The focus on a point outside add mode -/

namespace CLineOpAddPoint

variable {H : Type}

end CLineOpAddPoint

end QMapShack
